import Mathlib

/-!
# Shallow embedding of `websocket_agent.py` (gemini-browser-agent)

This file models the core of the WebSocket-based browser agent:

* the coordinate transform `denorm_x` / `denorm_y` (including the exact
  binary64 floating-point arithmetic Python performs in `int(x / 1000 * w)`),
* the state synchronizer `get_current_state`,
* the correlation engine `execute_action` and the response routing of
  `handle_websocket_connection`,
* the action dispatcher `exec_calls_websocket`,
* the agent control loop `start_agent_loop`.

JSON values are modelled by a small `JVal` type; dictionaries by association
lists with replace-on-insert semantics, matching Python `dict` behaviour on
the keys the program actually uses.  External collaborators (the browser-side
executor, image decoding, the Gemini model) are oracles supplied as function
parameters.
-/

/-- A JSON-like value as used by the agent's wire protocol and args. -/
inductive JVal where
  | jstr (s : String)
  | jnum (n : Int)
  | jbool (b : Bool)
deriving DecidableEq, Repr

/-- A JSON object: association list, unique keys maintained by `dset`. -/
abbrev JDict := List (String × JVal)

/-- `d.get(k)` / `d[k]` lookup. -/
def dget (d : JDict) (k : String) : Option JVal :=
  (d.find? (fun e => e.1 == k)).map (·.2)

/-- `k in d` membership test. -/
def dhas (d : JDict) (k : String) : Bool :=
  (dget d k).isSome

/-- `d[k] = v` assignment: replace an existing binding or append a new one. -/
def dset (d : JDict) (k : String) (v : JVal) : JDict :=
  if dhas d k then d.map (fun e => if e.1 == k then (k, v) else e)
  else d ++ [(k, v)]

/-- Python truthiness of a `JVal`. -/
def jtruthy : JVal → Bool
  | .jstr s => s ≠ ""
  | .jnum n => n ≠ 0
  | .jbool b => b

/-- Errors the Python code can raise on the paths we model. -/
inductive Err where
  | runtimeError (msg : String)
  | valueError (msg : String)
  | typeError (msg : String)
  | keyError (key : String)
  | decodeError (msg : String)
deriving DecidableEq, Repr

deriving instance DecidableEq for Except

/-- `str(e)` of an exception, as recorded in error payloads. -/
def Err.msg : Err → String
  | .runtimeError m => m
  | .valueError m => m
  | .typeError m => m
  | .keyError k => "'" ++ k ++ "'"
  | .decodeError m => m

/-! ## Exact binary64 arithmetic

Python's `x / 1000 * viewport_width` is evaluated in IEEE-754 binary64.
We model the nonnegative binary64 values exactly as rationals, with
round-to-nearest, ties-to-even on a 53-bit significand.  All quantities in
this program stay far from binary64 overflow and underflow. -/

/-- Bit-length helper: fuel-based so that the kernel can evaluate it. -/
def lgAux : Nat → Nat → Nat
  | 0, _ => 0
  | fuel+1, n => if n ≤ 1 then 0 else lgAux fuel (n / 2) + 1

/-- `lg n` is `⌊log₂ n⌋` for positive `n` (and `0` at `0`). -/
def lg (n : Nat) : Nat := lgAux n n

theorem lgAux_bracket :
    ∀ fuel n, 0 < n → n < 2 ^ fuel →
      2 ^ lgAux fuel n ≤ n ∧ n < 2 ^ (lgAux fuel n + 1) := by
  intro fuel
  induction fuel with
  | zero =>
    intro n h1 h2
    simp only [pow_zero] at h2
    omega
  | succ f ih =>
    intro n h1 h2
    by_cases hn : n ≤ 1
    · have hone : n = 1 := by omega
      subst hone
      simp [lgAux]
    · simp only [lgAux, if_neg hn]
      have hd : 0 < n / 2 := by omega
      have hd2 : n / 2 < 2 ^ f := by
        have h2' : n < 2 ^ f * 2 := by rw [← pow_succ]; exact h2
        omega
      obtain ⟨l, r⟩ := ih (n / 2) hd hd2
      have hl2 : 2 ^ (lgAux f (n / 2) + 1) = 2 ^ lgAux f (n / 2) * 2 := by
        rw [pow_succ]
      have hr2 : 2 ^ (lgAux f (n / 2) + 1 + 1) = 2 ^ (lgAux f (n / 2) + 1) * 2 := by
        rw [pow_succ]
      constructor
      · omega
      · omega

theorem lg_bracket (n : Nat) (h : 0 < n) :
    2 ^ lg n ≤ n ∧ n < 2 ^ (lg n + 1) :=
  lgAux_bracket n n h (Nat.lt_two_pow n)

/-- `2^e` as a rational, for an integer exponent. -/
def pow2 (e : Int) : ℚ := (2 : ℚ) ^ e

theorem pow2_pos (e : Int) : 0 < pow2 e := zpow_pos (by norm_num) e

theorem pow2_add (a b : Int) : pow2 (a + b) = pow2 a * pow2 b :=
  zpow_add₀ (by norm_num) a b

theorem pow2_natCast (n : Nat) : pow2 (n : Int) = (2 : ℚ) ^ n :=
  zpow_natCast 2 n

/-- Binary exponent of a positive rational: the unique `e` with
`2^e ≤ q < 2^(e+1)`, computed from the bit lengths of numerator and
denominator. -/
def qexp (q : ℚ) : Int :=
  let c : Int := (lg q.num.toNat : Int) - (lg q.den : Int)
  if q < pow2 c then c - 1 else c

/-- Round a rational to the nearest integer, ties to even. -/
def roundNE (s : ℚ) : Int :=
  let n := ⌊s⌋
  if s - n < 1/2 then n
  else if (1:ℚ)/2 < s - n then n + 1
  else if n % 2 = 0 then n else n + 1

/-- Round a nonnegative rational to the nearest binary64 value
(53-bit significand, round-to-nearest ties-to-even). -/
def fround (q : ℚ) : ℚ :=
  if q ≤ 0 then 0
  else (roundNE (q / pow2 (qexp q - 52)) : ℚ) * pow2 (qexp q - 52)

/-- Correctly rounded binary64 division. -/
def fdiv (a b : ℚ) : ℚ := fround (a / b)

/-- Correctly rounded binary64 multiplication. -/
def fmul (a b : ℚ) : ℚ := fround (a * b)

/-- Python `int()` truncation toward zero. -/
def pytrunc (q : ℚ) : Int := if q < 0 then -⌊-q⌋ else ⌊q⌋

/-- `denorm_x` from `websocket_agent.py`:
`int(x / 1000 * viewport_width)` guarded by a range check. -/
def denorm_x (x : Int) (viewport_width : Int) : Except Err Int :=
  if ¬ (0 ≤ x ∧ x ≤ 1000) then
    .error (.valueError s!"Normalized x must be 0-1000, got {x}")
  else
    .ok (pytrunc (fmul (fdiv (x : ℚ) 1000) (viewport_width : ℚ)))

/-- `denorm_y` from `websocket_agent.py`:
`int(y / 1000 * viewport_height)` guarded by a range check. -/
def denorm_y (y : Int) (viewport_height : Int) : Except Err Int :=
  if ¬ (0 ≤ y ∧ y ≤ 1000) then
    .error (.valueError s!"Normalized y must be 0-1000, got {y}")
  else
    .ok (pytrunc (fmul (fdiv (y : ℚ) 1000) (viewport_height : ℚ)))

/-! ### Correctness facts about the float model -/

theorem qexp_bracket (q : ℚ) (hq : 0 < q) :
    pow2 (qexp q) ≤ q ∧ q < pow2 (qexp q + 1) := by
  have hnum : 0 < q.num := Rat.num_pos.mpr hq
  have hden : 0 < q.den := q.den_pos
  have hapos : 0 < q.num.toNat := by omega
  obtain ⟨ha1, ha2⟩ := lg_bracket q.num.toNat hapos
  obtain ⟨hb1, hb2⟩ := lg_bracket q.den hden
  set la : Int := (lg q.num.toNat : Int) with hla
  set lb : Int := (lg q.den : Int) with hlb
  have hq_eq : q = (q.num.toNat : ℚ) / (q.den : ℚ) := by
    have h1 : ((q.num.toNat : ℚ)) = (q.num : ℚ) := by
      exact_mod_cast Int.toNat_of_nonneg hnum.le
    rw [h1, Rat.num_div_den q]
  have hdposQ : (0 : ℚ) < (q.den : ℚ) := by exact_mod_cast hden
  have hP1 : pow2 la ≤ (q.num.toNat : ℚ) := by
    rw [hla, pow2_natCast]; exact_mod_cast ha1
  have hP2 : (q.num.toNat : ℚ) < pow2 (la + 1) := by
    have : ((la : Int) + 1) = ((lg q.num.toNat + 1 : Nat) : Int) := by
      rw [hla]; push_cast; ring
    rw [this, pow2_natCast]; exact_mod_cast ha2
  have hP3 : pow2 lb ≤ (q.den : ℚ) := by
    rw [hlb, pow2_natCast]; exact_mod_cast hb1
  have hP4 : (q.den : ℚ) < pow2 (lb + 1) := by
    have : ((lb : Int) + 1) = ((lg q.den + 1 : Nat) : Int) := by
      rw [hlb]; push_cast; ring
    rw [this, pow2_natCast]; exact_mod_cast hb2
  have hlow : pow2 (la - lb - 1) < q := by
    rw [hq_eq, lt_div_iff hdposQ]
    calc pow2 (la - lb - 1) * (q.den : ℚ)
        < pow2 (la - lb - 1) * pow2 (lb + 1) := by
          exact mul_lt_mul_of_pos_left hP4 (pow2_pos _)
      _ = pow2 la := by rw [← pow2_add]; ring_nf
      _ ≤ (q.num.toNat : ℚ) := hP1
  have hhigh : q < pow2 (la - lb + 1) := by
    rw [hq_eq, div_lt_iff hdposQ]
    calc (q.num.toNat : ℚ) < pow2 (la + 1) := hP2
      _ = pow2 (la - lb + 1) * pow2 lb := by rw [← pow2_add]; ring_nf
      _ ≤ pow2 (la - lb + 1) * (q.den : ℚ) := by
          exact mul_le_mul_of_nonneg_left hP3 (pow2_pos _).le
  show pow2 (qexp q) ≤ q ∧ q < pow2 (qexp q + 1)
  rw [qexp]
  simp only [← hla, ← hlb]
  split
  · next h =>
    refine ⟨?_, ?_⟩
    · have := hlow
      calc pow2 (la - lb - 1) ≤ pow2 (la - lb - 1) := le_refl _
        _ ≤ q := hlow.le
    · have : la - lb - 1 + 1 = la - lb := by ring
      rw [this]; exact h
  · next h =>
    exact ⟨not_lt.mp h, hhigh⟩

/-- The binary exponent is determined by its bracketing property. -/
theorem qexp_eq_of_bracket (q : ℚ) (e : Int)
    (h1 : pow2 e ≤ q) (h2 : q < pow2 (e + 1)) : qexp q = e := by
  have hq : 0 < q := lt_of_lt_of_le (pow2_pos e) h1
  obtain ⟨g1, g2⟩ := qexp_bracket q hq
  have hone : (1 : ℚ) < 2 := by norm_num
  have hlt1 : pow2 e < pow2 (qexp q + 1) := lt_of_le_of_lt h1 g2
  have hlt2 : pow2 (qexp q) < pow2 (e + 1) := lt_of_le_of_lt g1 h2
  have he1 : e < qexp q + 1 := by
    by_contra hc
    push_neg at hc
    have : pow2 (qexp q + 1) ≤ pow2 e := by
      rw [pow2, pow2]
      exact zpow_le_zpow_right₀ (by norm_num) hc
    linarith [hlt1]
  have he2 : qexp q < e + 1 := by
    by_contra hc
    push_neg at hc
    have : pow2 (e + 1) ≤ pow2 (qexp q) := by
      rw [pow2, pow2]
      exact zpow_le_zpow_right₀ (by norm_num) hc
    linarith [hlt2]
  omega

theorem roundNE_close (s : ℚ) : |(roundNE s : ℚ) - s| ≤ 1/2 := by
  have h0 : (⌊s⌋ : ℚ) ≤ s := Int.floor_le s
  have h1 : s < ⌊s⌋ + 1 := Int.lt_floor_add_one s
  rw [roundNE]
  split
  · next h => rw [abs_le]; constructor <;> push_cast <;> linarith
  · split
    · next h h' => rw [abs_le]; constructor <;> push_cast <;> linarith
    · split <;> (rw [abs_le]; constructor <;> push_cast <;> linarith)

theorem roundNE_nonneg (s : ℚ) (h : 0 ≤ s) : 0 ≤ roundNE s := by
  have h0 : (0 : Int) ≤ ⌊s⌋ := Int.floor_nonneg.mpr h
  rw [roundNE]
  split
  · exact h0
  · split
    · omega
    · split <;> omega

theorem fround_nonneg (q : ℚ) : 0 ≤ fround q := by
  rw [fround]
  split
  · exact le_refl 0
  · next h =>
    push_neg at h
    have hs : (0:ℚ) ≤ q / pow2 (qexp q - 52) := div_nonneg h.le (pow2_pos _).le
    have h2 : (0:ℚ) ≤ (roundNE (q / pow2 (qexp q - 52)) : ℚ) := by
      exact_mod_cast roundNE_nonneg _ hs
    exact mul_nonneg h2 (pow2_pos _).le

/-- Relative-error bound of one binary64 rounding. -/
theorem fround_close (q : ℚ) (hq : 0 ≤ q) : |fround q - q| ≤ q / 2 ^ 53 := by
  rw [fround]
  split
  · next h =>
    have : q = 0 := le_antisymm h hq
    simp [this]
  · next h =>
    push_neg at h
    obtain ⟨g1, _⟩ := qexp_bracket q h
    set e : Int := qexp q with he
    set s : ℚ := q / pow2 (e - 52) with hs
    have hpos : (0:ℚ) < pow2 (e - 52) := pow2_pos _
    have key : (roundNE s : ℚ) * pow2 (e - 52) - q = ((roundNE s : ℚ) - s) * pow2 (e - 52) := by
      rw [hs]; field_simp
    rw [key, abs_mul, abs_of_pos hpos]
    have hr := roundNE_close s
    calc |(roundNE s : ℚ) - s| * pow2 (e - 52)
        ≤ (1/2) * pow2 (e - 52) := by
          exact mul_le_mul_of_nonneg_right hr hpos.le
      _ = pow2 (e - 53) := by
          have : e - 52 = (e - 53) + 1 := by ring
          rw [this, pow2_add]
          have : pow2 (1 : Int) = 2 := by rw [pow2]; norm_num
          rw [this]; ring
      _ ≤ q / 2 ^ 53 := by
          have h1 : e - 53 = e + (-53) := by ring
          rw [h1, pow2_add]
          have h2 : pow2 (-53 : Int) = 1 / 2 ^ 53 := by
            rw [pow2, zpow_neg]
            norm_num
          rw [h2]
          have := g1
          rw [div_eq_mul_one_div q (2 ^ 53 : ℚ)]
          have hnn : (0:ℚ) ≤ 1 / 2 ^ 53 := by positivity
          exact mul_le_mul_of_nonneg_right g1 hnn

/-! ## Wire protocol frames and the correlation engine

`execute_action` (lines 143-170 of `websocket_agent.py`) registers a pending
future under a fresh message id, sends the request, and awaits the reply with
a 60-second timeout; the `finally` block pops the pending slot on every exit
path.  `handle_websocket_connection` (lines 319-364) routes each inbound
frame: a frame whose `id` matches a pending entry resolves that future;
otherwise the frame is treated as a command. -/

/-- The fields of an inbound JSON frame that the program reads. -/
structure Frame where
  id : Option JVal := none
  result : Option JDict := none
  cmd : Option String := none
  args : JDict := []
deriving DecidableEq, Repr

/-- State of one `asyncio.Future` in `PENDING_RESPONSES`. -/
inductive FutState where
  | waiting
  | resolved (f : Frame)
deriving DecidableEq, Repr

/-- The `PENDING_RESPONSES` dict: message id to future. -/
abbrev Pending := List (String × FutState)

/-- `PENDING_RESPONSES[k] = fut` (dict insert, replace-or-append). -/
def pinsert (p : Pending) (k : String) (v : FutState) : Pending :=
  if p.any (fun e => e.1 == k) then
    p.map (fun e => if e.1 == k then (k, v) else e)
  else p ++ [(k, v)]

/-- `PENDING_RESPONSES.pop(k, None)`. -/
def ppop (p : Pending) (k : String) : Pending :=
  p.filter (fun e => ¬ e.1 == k)

/-- How one `send`/`wait_for` round can end, from the caller's viewpoint. -/
inductive SendOutcome where
  | reply (f : Frame)
  | timedOut
  | sendError (e : Err)
deriving DecidableEq, Repr

/-- Result of one `execute_action` call: the returned value (or raised
error) together with the final `PENDING_RESPONSES` map. -/
structure ExecActionResult where
  result : Except Err (Option JDict)
  pending : Pending
deriving Repr

/-- `execute_action` from `websocket_agent.py` (lines 143-170): the guard on
the socket state, registration of the pending future, the three ways the
wait can end, and the `finally: PENDING_RESPONSES.pop(msg_id, None)`. -/
def execute_action (wsOpen : Bool) (pending : Pending) (msgId : String)
    (actionName : String) (outcome : SendOutcome) : ExecActionResult :=
  if ¬ wsOpen then
    ⟨.error (.runtimeError "WebSocket connection closed"), pending⟩
  else
    let p1 := pinsert pending msgId .waiting
    match outcome with
    | .reply f => ⟨.ok f.result, ppop p1 msgId⟩
    | .timedOut =>
        ⟨.error (.runtimeError ("Timeout waiting for " ++ actionName)), ppop p1 msgId⟩
    | .sendError e => ⟨.error e, ppop p1 msgId⟩

/-- The response-routing step of `handle_websocket_connection`
(lines 321-328): `if msg_id and msg_id in PENDING_RESPONSES`, resolve the
matching future with the whole frame; otherwise the frame is handled as a
command and `PENDING_RESPONSES` is left untouched.  The returned `Bool`
records whether the frame was consumed as a response. -/
def handle_frame (pending : Pending) (f : Frame) : Pending × Bool :=
  match f.id with
  | some v =>
      if jtruthy v then
        match v with
        | .jstr i =>
            if pending.any (fun e => e.1 == i) then
              (pending.map (fun e => if e.1 == i then (i, .resolved f) else e), true)
            else (pending, false)
        | _ => (pending, false)
      else (pending, false)
  | none => (pending, false)

/-! ## The state synchronizer `get_current_state`

Lines 44-86: screenshot and URL are fetched through the correlation engine;
the viewport is derived from the decoded screenshot when PIL is available and
the payload carries a base64 data URL, and falls back to an explicit
`get_viewport` query otherwise.  External effects are supplied by an
environment of oracles. -/

/-- Oracle type for one `execute_action` round trip as seen by the callers:
command name and args to the returned `result` value (or raised error). -/
abbrev ExecO := String → JDict → Except Err (Option JDict)

/-- The environment of external collaborators. -/
structure Env where
  /-- `PIL_AVAILABLE` -/
  pil : Bool
  /-- `base64.b64decode` + `Image.open` + `.size` applied to the part of the
  data URL after the first comma; `none` models a raised decode error. -/
  decode : String → Option (Nat × Nat)
  /-- the browser-side executor reached through `execute_action` -/
  exec : ExecO
  /-- whether the module-level `ws_connection` is set -/
  wsConnected : Bool := true

/-- Split a character list at every comma (the segments, in order). -/
def splitCommaAux : List Char → List Char → List (List Char)
  | [], acc => [acc.reverse]
  | c :: rest, acc =>
      if c = ',' then acc.reverse :: splitCommaAux rest []
      else splitCommaAux rest (c :: acc)

/-- `data_url.split(",")[1]`: `some` exactly when `"," in data_url`. -/
def dataUrlPayload (s : String) : Option String :=
  ((splitCommaAux s.toList []).map (fun l => String.mk l)).get? 1

/-- The state triple returned by `get_current_state`. -/
structure CState where
  screenshot : Option JDict
  viewport : JDict
  url : JVal
deriving DecidableEq, Repr

/-- The fallback branch of `get_current_state` (lines 70-77): query
`get_viewport` and tag the result with `source = "fallback"`.  A `None`
result makes the item assignment `viewport_data["source"] = ...` raise
`TypeError`. -/
def viewportFallback (env : Env) : Except Err JDict := do
  match ← env.exec "get_viewport" [] with
  | none => throw (.typeError "'NoneType' object does not support item assignment")
  | some d => pure (dset d "source" (.jstr "fallback"))

/-- `url_data.get("url", "") if url_data else ""`. -/
def urlOf : Option JDict → JVal
  | some d => if d = [] then .jstr "" else (dget d "url").getD (.jstr "")
  | none => .jstr ""

/-- `get_current_state` from `websocket_agent.py` (lines 44-86). -/
def get_current_state (env : Env) : Except Err CState := do
  let screenshot_data ← env.exec "screenshot" []
  let url_data ← env.exec "current_url" []
  let viewport_data : JDict ←
    match env.pil, screenshot_data with
    | true, some sd =>
        if sd ≠ [] ∧ dhas sd "dataUrl" then
          match dget sd "dataUrl" with
          | some (.jstr du) =>
              match dataUrlPayload du with
              | some b64 =>
                  match env.decode b64 with
                  | some (w, h) =>
                      pure [("width", .jnum w), ("height", .jnum h),
                            ("devicePixelRatio", .jnum 1), ("source", .jstr "screenshot")]
                  | none => throw (.decodeError "cannot identify image file")
              | none => viewportFallback env
          | _ => throw (.typeError "argument of type 'int' is not iterable")
        else viewportFallback env
    | _, _ => viewportFallback env
  if viewport_data = [] ∨ ¬ dhas viewport_data "width" ∨ ¬ dhas viewport_data "height" then
    throw (.runtimeError "Failed to get viewport dimensions")
  pure { screenshot := screenshot_data
         viewport := viewport_data
         url := urlOf url_data }

/-! ## The action dispatcher `exec_calls_websocket`

Lines 172-270: fetch a fresh viewport once for the batch, then dispatch each
function call sequentially; any exception inside one action is caught and
recorded as an error payload on that action's result, and the loop continues
with the next action. -/

/-- One observable primitive performed by the dispatcher. -/
inductive Prim where
  | call (cmd : String) (args : JDict)
  | sleep (seconds : ℚ)
deriving DecidableEq, Repr

/-- A dispatch step: computing the primitive itself may raise (`KeyError`
on a missing argument, `ValueError` from denormalization, ...); `none`
means the branch performs no primitive. -/
abbrev Step := Except Err (Option Prim)

/-- Run steps in order through the executor, stopping at the first raised
error; the trace records the primitives actually attempted. -/
def runSteps (exec : ExecO) : List Step → Except Err Unit × List Prim
  | [] => (.ok (), [])
  | .error e :: _ => (.error e, [])
  | .ok none :: rest => runSteps exec rest
  | .ok (some (.sleep q)) :: rest =>
      let (r, t) := runSteps exec rest
      (r, .sleep q :: t)
  | .ok (some (.call c a)) :: rest =>
      match exec c a with
      | .ok _ =>
          let (r, t) := runSteps exec rest
          (r, .call c a :: t)
      | .error e => (.error e, [.call c a])

/-- `args[k]`: raises `KeyError` when missing. -/
def argItem (args : JDict) (k : String) : Except Err JVal :=
  match dget args k with
  | some v => .ok v
  | none => .error (.keyError k)

/-- Using a JSON value as a number (Python booleans are integers). -/
def asInt : JVal → Except Err Int
  | .jnum n => .ok n
  | .jbool b => .ok (if b then 1 else 0)
  | .jstr _ => .error (.typeError "'<' not supported between instances of 'int' and 'str'")

/-- `denorm_x` / `denorm_y` applied to JSON argument and viewport values. -/
def denormJ (isX : Bool) (v extJ : JVal) : Except Err Int := do
  let x ← asInt v
  let ext ← asInt extJ
  if isX then denorm_x x ext else denorm_y x ext

/-- `args.get(k, default)` followed by Python truthiness. -/
def truthyD (args : JDict) (k : String) (dflt : Bool) : Bool :=
  match dget args k with
  | some v => jtruthy v
  | none => dflt

/-- `args.get("direction", "down").lower()`; a non-string value raises
`AttributeError` (modelled as a type error). -/
def dirArg (args : JDict) : Except Err String :=
  match dget args "direction" with
  | none => .ok "down"
  | some (.jstr s) => .ok s.toLower
  | some _ => .error (.typeError "'int' object has no attribute 'lower'")

/-- The JavaScript snippet of the `drag_and_drop` branch. -/
def dragScript (sx sy dx dy : Int) : String :=
  "\n                    const startEl = document.elementFromPoint(" ++ toString sx ++
  ", " ++ toString sy ++ ");\n                    const endEl = document.elementFromPoint(" ++
  toString dx ++ ", " ++ toString dy ++
  ");\n                    if (startEl && endEl) \x7b\n                        startEl.dispatchEvent(new MouseEvent('mousedown', \x7bbubbles: true\x7d));\n                        endEl.dispatchEvent(new MouseEvent('mouseup', \x7bbubbles: true\x7d));\n                    \x7d\n                    "

/-- The per-action branch of `exec_calls_websocket` (lines 193-260): the
steps an action performs, plus the `extra` payload it starts from. -/
def actionSteps (vwJ vhJ : JVal) (name : String) (args : JDict) :
    List Step × JDict :=
  match name with
  | "open_web_browser" => ([], [])
  | "wait_5_seconds" => ([.ok (some (.sleep 5))], [])
  | "go_back" => ([.ok (some (.call "go_back" []))], [])
  | "go_forward" => ([.ok (some (.call "go_forward" []))], [])
  | "search" => ([.ok (some (.call "goto" [("url", .jstr "https://www.google.com")]))], [])
  | "navigate" =>
      ([do
          let u ← argItem args "url"
          pure (some (.call "goto" [("url", u)]))], [])
  | "click_at" =>
      ([do
          let x ← denormJ true (← argItem args "x") vwJ
          let y ← denormJ false (← argItem args "y") vhJ
          pure (some (.call "click" [("x", .jnum x), ("y", .jnum y)]))], [])
  | "hover_at" =>
      ([do
          let x ← denormJ true (← argItem args "x") vwJ
          let y ← denormJ false (← argItem args "y") vhJ
          pure (some (.call "hover" [("x", .jnum x), ("y", .jnum y)]))], [])
  | "type_text_at" =>
      (([do
           let x ← denormJ true (← argItem args "x") vwJ
           let y ← denormJ false (← argItem args "y") vhJ
           pure (some (.call "click" [("x", .jnum x), ("y", .jnum y)]))] ++
        (if truthyD args "clear_before_typing" true then
           [.ok (some (.call "press" [("key", .jstr "Meta+A")])),
            .ok (some (.call "press" [("key", .jstr "Backspace")]))]
         else []) ++
        [do
           let x ← denormJ true (← argItem args "x") vwJ
           let y ← denormJ false (← argItem args "y") vhJ
           let t ← argItem args "text"
           pure (some (.call "type" [("x", .jnum x), ("y", .jnum y), ("text", t)]))] ++
        (if truthyD args "press_enter" true then
           [.ok (some (.call "press" [("key", .jstr "Enter")]))]
         else [])), [])
  | "key_combination" =>
      ([do
          let ks ← argItem args "keys"
          pure (some (.call "press" [("key", ks)]))], [])
  | "scroll_document" =>
      ([do
          let d ← dirArg args
          pure (if d = "down" then some (.call "press" [("key", .jstr "PageDown")])
                else if d = "up" then some (.call "press" [("key", .jstr "PageUp")])
                else if d = "left" then
                  some (.call "evaluate" [("expression", .jstr "window.scrollBy(-400, 0)")])
                else if d = "right" then
                  some (.call "evaluate" [("expression", .jstr "window.scrollBy(400, 0)")])
                else none)], [])
  | "scroll_at" =>
      ([do
          let x ← denormJ true (← argItem args "x") vwJ
          let y ← denormJ false (← argItem args "y") vhJ
          pure (some (.call "hover" [("x", .jnum x), ("y", .jnum y)])),
        do
          let mg ← match dget args "magnitude" with
                   | some v => asInt v
                   | none => pure 800
          let vh ← asInt vhJ
          let am := pytrunc (fmul (fdiv (mg : ℚ) 1000) (vh : ℚ))
          let d ← dirArg args
          let dy := if d = "down" then am else -am
          pure (some (.call "evaluate"
            [("expression", .jstr ("window.scrollBy(0, " ++ toString dy ++ ")"))]))], [])
  | "drag_and_drop" =>
      ([do
          let sx ← denormJ true (← argItem args "x") vwJ
          let sy ← denormJ false (← argItem args "y") vhJ
          let dx ← denormJ true (← argItem args "destination_x") vwJ
          let dy ← denormJ false (← argItem args "destination_y") vhJ
          pure (some (.call "evaluate" [("expression", .jstr (dragScript sx sy dx dy))]))], [])
  | _ => ([], [("warning", .jstr "unimplemented_action")])

/-- Merge two dicts, the second one's keys winning (`{**d1, **d2}`). -/
def dmerge (d1 d2 : JDict) : JDict :=
  d2.foldl (fun acc e => dset acc e.1 e.2) d1

/-- One iteration of the dispatch loop (lines 186-268): run the action's
steps inside `try`; on success append the settle sleep and return `extra`;
on an exception return `{"error": str(e), **extra}`.  The trace lists the
primitives attempted. -/
def dispatchAction (exec : ExecO) (vwJ vhJ : JVal) (name : String)
    (args : JDict) : JDict × List Prim :=
  let (steps, extra) := actionSteps vwJ vhJ name args
  match runSteps exec steps with
  | (.ok _, t) => (extra, t ++ [.sleep (3/5)])
  | (.error e, t) => (dmerge [("error", .jstr e.msg)] extra, t)

/-- A `function_call` part: name and (possibly `None`) args. -/
structure FCall where
  name : String
  args : Option JDict
deriving DecidableEq, Repr

/-- `exec_calls_websocket` (lines 172-270) on the already-extracted list of
function calls: fetch a fresh viewport for the batch, validate it, then
dispatch every call in order.  Returns the per-action results (name and
payload, in order) and the wire trace. -/
def exec_calls_websocket (exec : ExecO) (calls : List FCall) :
    Except Err (List (String × JDict) × List Prim) :=
  match exec "get_viewport" [] with
  | .error e => .error e
  | .ok none => .error (.runtimeError "Failed to get viewport dimensions for action execution")
  | .ok (some d) =>
      match dget d "width", dget d "height" with
      | some vwJ, some vhJ =>
          let dispatched := calls.map (fun c =>
            (c.name, dispatchAction exec vwJ vhJ c.name (c.args.getD [])))
          .ok (dispatched.map (fun r => (r.1, r.2.1)),
               .call "get_viewport" [] :: (dispatched.map (fun r => r.2.2)).join)
      | _, _ => .error (.runtimeError "Failed to get viewport dimensions for action execution")

/-! ## Feedback building and the agent control loop

`build_function_responses_websocket` (lines 272-310) performs one shared
state capture after the batch and attaches the same screenshot to every
per-action result.  `start_agent_loop` (lines 380-489) drives the turn
loop. -/

/-- One `types.FunctionResponse` as built by the program. -/
structure FuncResp where
  name : String
  response : JDict
  screenshotPayload : String
deriving DecidableEq, Repr

/-- The base64 payload re-extracted from the captured screenshot
(lines 278-291; decoding to bytes is kept as the payload string). -/
def screenshotPayloadOf (st : CState) : String :=
  match st.screenshot with
  | some sd =>
      if sd ≠ [] ∧ dhas sd "dataUrl" then
        match dget sd "dataUrl" with
        | some (.jstr du) => (dataUrlPayload du).getD ""
        | _ => ""
      else ""
  | none => ""

/-- `build_function_responses_websocket` (lines 272-310). -/
def build_function_responses_websocket (env : Env)
    (results : List (String × JDict)) : Except Err (List FuncResp) := do
  let st ← get_current_state env
  pure (results.map (fun r =>
    ⟨r.1, dmerge [("url", st.url)] r.2, screenshotPayloadOf st⟩))

/-- A part of a Gemini candidate's content. -/
structure GPart where
  text : Option String := none
  function_call : Option FCall := none
deriving DecidableEq, Repr

/-- A Gemini candidate. -/
structure Candidate where
  content : Option (List GPart)
deriving DecidableEq, Repr

/-- A `generate_content` response: candidate list and block reason. -/
structure GenResp where
  candidates : List Candidate
  blockReason : Option String := none
deriving DecidableEq, Repr

/-- A frame sent to the extension (`server_output` / `agent_result`). -/
inductive ServerMsg where
  | serverOutput (text : String)
  | agentResult (result : String)
deriving DecidableEq, Repr

/-- Terminal outcome of the agent loop. -/
inductive Outcome where
  | completed (text : String)
  | stepLimit
  | failedNoCandidates
  | failedEmptyContent
  | crashed (e : Err)
deriving DecidableEq, Repr

/-- Observable result of one agent-loop run. -/
structure LoopRes where
  outcome : Outcome
  /-- number of turns begun (model invocations made) -/
  turns : Nat
  /-- messages pushed to the extension, in order -/
  sent : List ServerMsg
  /-- the function-call batches handed to `exec_calls_websocket`, per turn -/
  batches : List (List FCall)
deriving DecidableEq, Repr

/-- `[p.function_call for p in parts if getattr(p, "function_call", None)]` -/
def extractCalls (parts : List GPart) : List FCall :=
  parts.filterMap (·.function_call)

/-- `" ".join([p.text for p in parts if getattr(p, "text", None)])` -/
def joinTexts (parts : List GPart) : String :=
  String.intercalate " " (parts.filterMap (fun p =>
    match p.text with
    | some t => if t = "" then none else some t
    | none => none))

/-- The step-limit notice of the `for ... else` branch (lines 481-487). -/
def stepLimitMsg (maxSteps : Nat) : String :=
  s!"Reached maximum steps limit ({maxSteps} steps). Agent stopping."

/-- The missing-candidates diagnostic (lines 442-447). -/
def noCandidatesMsg (blockReason : Option String) : String :=
  match blockReason with
  | some r => s!"⚠️ Gemini response missing candidates (block reason: {r})."
  | none => "⚠️ Gemini response missing candidates."

/-- The turn loop of `start_agent_loop` (lines 430-489), recursing on the
remaining step budget.  `gen` is the model oracle indexed by turn. -/
def agent_turns (env : Env) (gen : Nat → GenResp) (maxSteps : Nat) :
    Nat → Nat → LoopRes
  | _, 0 =>
      ⟨.stepLimit, 0,
       if env.wsConnected then [.agentResult (stepLimitMsg maxSteps)] else [], []⟩
  | turn, fuel+1 =>
      let banner := ServerMsg.serverOutput ("----- TURN " ++ toString (turn + 1) ++ " -----")
      match (gen turn).candidates with
      | [] =>
          ⟨.failedNoCandidates, 1,
           [banner, .serverOutput (noCandidatesMsg (gen turn).blockReason),
            .agentResult "Agent stopped: Gemini returned no candidates."], []⟩
      | cand :: _ =>
          match cand.content with
          | none =>
              ⟨.failedEmptyContent, 1,
               [banner, .serverOutput "⚠️ Gemini candidate missing content; stopping agent.",
                .agentResult "Agent stopped: Gemini returned empty content."], []⟩
          | some parts =>
              if parts = [] then
                ⟨.failedEmptyContent, 1,
                 [banner, .serverOutput "⚠️ Gemini candidate missing content; stopping agent.",
                  .agentResult "Agent stopped: Gemini returned empty content."], []⟩
              else if parts.all (fun p => p.function_call = none) then
                ⟨.completed (joinTexts parts), 1,
                 [banner, .agentResult (joinTexts parts)], []⟩
              else
                match exec_calls_websocket env.exec (extractCalls parts) with
                | .error e =>
                    ⟨.crashed e, 1,
                     [banner, .serverOutput "▶ Executing actions…"], [extractCalls parts]⟩
                | .ok (results, _) =>
                    match build_function_responses_websocket env results with
                    | .error e =>
                        ⟨.crashed e, 1,
                         [banner, .serverOutput "▶ Executing actions…"], [extractCalls parts]⟩
                    | .ok _ =>
                        let r := agent_turns env gen maxSteps (turn + 1) fuel
                        ⟨r.outcome, r.turns + 1,
                         banner :: .serverOutput "▶ Executing actions…" :: r.sent,
                         extractCalls parts :: r.batches⟩

/-- `start_agent_loop` (lines 380-489): initial state capture, then the
turn loop with the step budget. -/
def start_agent_loop (env : Env) (gen : Nat → GenResp) (maxSteps : Nat) : LoopRes :=
  match get_current_state env with
  | .error e => ⟨.crashed e, 0, [], []⟩
  | .ok _ => agent_turns env gen maxSteps 0 maxSteps

/-- Evaluation principle for `fround` at a concrete argument, given the
binary exponent and the rounded significand. -/
theorem fround_eval (q : ℚ) (e n : Int)
    (h1 : pow2 e ≤ q) (h2 : q < pow2 (e + 1))
    (hn : roundNE (q / pow2 (e - 52)) = n) : fround q = n * pow2 (e - 52) := by
  have hq : 0 < q := lt_of_lt_of_le (pow2_pos e) h1
  rw [fround, if_neg (not_le.mpr hq), qexp_eq_of_bracket q e h1 h2, hn]

/-- Evaluation principle for the composite `int(a / b * c)`. -/
theorem pytrunc_fmul_fdiv_eval (a b c : ℚ) (e1 n1 e2 n2 r : Int)
    (h11 : pow2 e1 ≤ a / b) (h12 : a / b < pow2 (e1 + 1))
    (h13 : roundNE (a / b / pow2 (e1 - 52)) = n1)
    (h21 : pow2 e2 ≤ (n1 : ℚ) * pow2 (e1 - 52) * c)
    (h22 : (n1 : ℚ) * pow2 (e1 - 52) * c < pow2 (e2 + 1))
    (h23 : roundNE ((n1 : ℚ) * pow2 (e1 - 52) * c / pow2 (e2 - 52)) = n2)
    (hr : pytrunc ((n2 : ℚ) * pow2 (e2 - 52)) = r) :
    pytrunc (fmul (fdiv a b) c) = r := by
  rw [fdiv, fround_eval (a / b) e1 n1 h11 h12 h13, fmul,
    fround_eval _ e2 n2 h21 h22 h23, hr]

theorem denorm_x_eval_290_100 : denorm_x 290 100 = .ok 28 := by
  rw [denorm_x, if_neg (by norm_num)]
  congr 1
  apply pytrunc_fmul_fdiv_eval _ _ _ (-2) 5224175567749775 4 8162774324609023 28
  · norm_num [pow2]
  · norm_num [pow2]
  · rw [roundNE]; norm_num [pow2]
  · norm_num [pow2]
  · norm_num [pow2]
  · rw [roundNE]; norm_num [pow2]
  · rw [pytrunc]; norm_num [pow2]

theorem denorm_x_eval_500_1280 : denorm_x 500 1280 = .ok 640 := by
  rw [denorm_x, if_neg (by norm_num)]
  congr 1
  apply pytrunc_fmul_fdiv_eval _ _ _ (-1) 4503599627370496 9 5629499534213120 640
  · norm_num [pow2]
  · norm_num [pow2]
  · rw [roundNE]; norm_num [pow2]
  · norm_num [pow2]
  · norm_num [pow2]
  · rw [roundNE]; norm_num [pow2]
  · rw [pytrunc]; norm_num [pow2]

theorem denorm_y_eval_500_720 : denorm_y 500 720 = .ok 360 := by
  rw [denorm_y, if_neg (by norm_num)]
  congr 1
  apply pytrunc_fmul_fdiv_eval _ _ _ (-1) 4503599627370496 8 6333186975989760 360
  · norm_num [pow2]
  · norm_num [pow2]
  · rw [roundNE]; norm_num [pow2]
  · norm_num [pow2]
  · norm_num [pow2]
  · rw [roundNE]; norm_num [pow2]
  · rw [pytrunc]; norm_num [pow2]

theorem denorm_y_eval_500_800 : denorm_y 500 800 = .ok 400 := by
  rw [denorm_y, if_neg (by norm_num)]
  congr 1
  apply pytrunc_fmul_fdiv_eval _ _ _ (-1) 4503599627370496 8 7036874417766400 400
  · norm_num [pow2]
  · norm_num [pow2]
  · rw [roundNE]; norm_num [pow2]
  · norm_num [pow2]
  · norm_num [pow2]
  · rw [roundNE]; norm_num [pow2]
  · rw [pytrunc]; norm_num [pow2]

/-- The truncated float product is within one pixel of the exact floor. -/
theorem pytrunc_fmul_fdiv_close (x ext : Int) (hx0 : 0 ≤ x) (hx1 : x ≤ 1000)
    (hext : 0 < ext) (hbd : ext ≤ 2 ^ 40) :
    (pytrunc (fmul (fdiv (x : ℚ) 1000) (ext : ℚ)) - ⌊(x : ℚ) / 1000 * ext⌋).natAbs ≤ 1 := by
  set u : ℚ := (x : ℚ) / 1000 with hu_def
  have hu0 : 0 ≤ u := by
    rw [hu_def]
    apply div_nonneg _ (by norm_num)
    exact_mod_cast hx0
  have hu1 : u ≤ 1 := by
    rw [hu_def, div_le_one (by norm_num)]
    exact_mod_cast hx1
  set d : ℚ := fround u with hd_def
  have hdClose : |d - u| ≤ u / 2 ^ 53 := fround_close u hu0
  have hd0 : 0 ≤ d := fround_nonneg u
  have hd2 : d ≤ 2 := by
    rcases abs_le.mp hdClose with ⟨_, hR⟩
    nlinarith
  have hextQ : (0 : ℚ) < (ext : ℚ) := by exact_mod_cast hext
  have hextBd : (ext : ℚ) ≤ 2 ^ 40 := by exact_mod_cast hbd
  set p : ℚ := d * ext with hp_def
  have hp0 : 0 ≤ p := mul_nonneg hd0 hextQ.le
  set m : ℚ := fround p with hm_def
  have hmClose : |m - p| ≤ p / 2 ^ 53 := fround_close p hp0
  have hm0 : 0 ≤ m := fround_nonneg p
  set v : ℚ := u * ext with hv_def
  have hpv : |p - v| ≤ (ext : ℚ) * (u / 2 ^ 53) := by
    have : p - v = (d - u) * ext := by rw [hp_def, hv_def]; ring
    rw [this, abs_mul, abs_of_pos hextQ]
    calc |d - u| * (ext : ℚ) ≤ u / 2 ^ 53 * ext :=
          mul_le_mul_of_nonneg_right hdClose hextQ.le
      _ = (ext : ℚ) * (u / 2 ^ 53) := by ring
  have hpBd : p ≤ 2 * 2 ^ 40 := by
    rw [hp_def]
    calc d * (ext : ℚ) ≤ 2 * (ext : ℚ) := mul_le_mul_of_nonneg_right hd2 hextQ.le
      _ ≤ 2 * 2 ^ 40 := by nlinarith
  have hmv : |m - v| ≤ 1 / 2 := by
    have htri : |m - v| ≤ |m - p| + |p - v| := by
      calc |m - v| = |(m - p) + (p - v)| := by ring_nf
        _ ≤ |m - p| + |p - v| := abs_add _ _
    have hpd : p / 2 ^ 53 ≤ 2 * 2 ^ 40 / 2 ^ 53 := by gcongr
    have heu : (ext : ℚ) * (u / 2 ^ 53) ≤ 2 ^ 40 / 2 ^ 53 := by
      have hprod : (ext : ℚ) * u ≤ 2 ^ 40 := by nlinarith
      calc (ext : ℚ) * (u / 2 ^ 53) = (ext : ℚ) * u / 2 ^ 53 := by ring
        _ ≤ 2 ^ 40 / 2 ^ 53 := by gcongr
    calc |m - v| ≤ |m - p| + |p - v| := htri
      _ ≤ 2 * 2 ^ 40 / 2 ^ 53 + 2 ^ 40 / 2 ^ 53 :=
          add_le_add (le_trans hmClose hpd) (le_trans hpv heu)
      _ ≤ 1 / 2 := by norm_num
  have hfl : pytrunc m = ⌊m⌋ := by rw [pytrunc, if_neg (not_lt.mpr hm0)]
  rcases abs_le.mp hmv with ⟨hL, hR⟩
  have hup : ⌊m⌋ ≤ ⌊v⌋ + 1 := by
    have h1 : m ≤ v + (1 : Int) := by push_cast; linarith
    have := Int.floor_le_floor h1
    rwa [Int.floor_add_int] at this
  have hdown : ⌊v⌋ - 1 ≤ ⌊m⌋ := by
    have h1 : v + (-1 : Int) ≤ m := by push_cast; linarith
    have := Int.floor_le_floor h1
    rwa [Int.floor_add_int] at this
  rw [show fmul (fdiv ((x : ℚ)) 1000) (ext : ℚ) = m by rw [hm_def, hp_def, hd_def, hu_def, fmul, fdiv]]
  rw [hfl]
  omega

/-! ## Claim C5: the coordinate transform -/

/-- C5 (amended): `denorm_x`/`denorm_y` fail with the out-of-range
`ValueError` exactly when the axis value lies outside [0, 1000]; for an
in-range axis value and a positive extent up to 2^40 they return the
binary64 truncation `int(axis/1000*extent)`, which lies within one pixel
of `⌊axis/1000 × extent⌋` but does not always equal it. -/
theorem C5_denorm_range_and_within_one_pixel (x ext : Int) :
    ((x < 0 ∨ 1000 < x) →
        denorm_x x ext = .error (.valueError s!"Normalized x must be 0-1000, got {x}") ∧
        denorm_y x ext = .error (.valueError s!"Normalized y must be 0-1000, got {x}")) ∧
    (0 ≤ x → x ≤ 1000 → 0 < ext → ext ≤ 2 ^ 40 →
        ∃ r, denorm_x x ext = .ok r ∧ denorm_y x ext = .ok r ∧
          (r - ⌊(x : ℚ) / 1000 * (ext : ℚ)⌋).natAbs ≤ 1) := by
  constructor
  · intro hout
    have hcond : ¬ (0 ≤ x ∧ x ≤ 1000) := by omega
    rw [denorm_x, if_pos hcond, denorm_y, if_pos hcond]
    exact ⟨rfl, rfl⟩
  · intro hx0 hx1 hext hbd
    have hcond : ¬ ¬ (0 ≤ x ∧ x ≤ 1000) := by omega
    refine ⟨pytrunc (fmul (fdiv (x : ℚ) 1000) (ext : ℚ)), ?_, ?_, ?_⟩
    · rw [denorm_x, if_neg hcond]
    · rw [denorm_y, if_neg hcond]
    · exact pytrunc_fmul_fdiv_close x ext hx0 hx1 hext hbd

/-- Witness for C5: at (1001, 100) both functions fail with the range
error; at (500, 100) they return a value within one pixel of the floor. -/
theorem C5_denorm_witness :
    ((denorm_x 1001 100 = .error (.valueError s!"Normalized x must be 0-1000, got {(1001 : Int)}") ∧
      denorm_y 1001 100 = .error (.valueError s!"Normalized y must be 0-1000, got {(1001 : Int)}")) ∧
     ∃ r, denorm_x 500 100 = .ok r ∧ denorm_y 500 100 = .ok r ∧
       (r - ⌊(500 : ℚ) / 1000 * ((100 : Int) : ℚ)⌋).natAbs ≤ 1) :=
  ⟨(C5_denorm_range_and_within_one_pixel 1001 100).1 (by decide),
   (C5_denorm_range_and_within_one_pixel 500 100).2
     (by decide) (by decide) (by decide) (by decide)⟩

/-- Counterexample to C5 as stated: `denorm_x 290 100` returns `28`, yet
`⌊290/1000 × 100⌋ = 29` — the binary64 product `0.29 * 100` is slightly
below `29` and `int()` truncates it to `28`. -/
theorem C5_denorm_exact_floor_counterexample :
    denorm_x 290 100 = .ok 28 ∧ ⌊(290 : ℚ) / 1000 * (100 : ℚ)⌋ = 29 ∧ (28 : Int) ≠ 29 := by
  refine ⟨denorm_x_eval_290_100, ?_, by decide⟩
  norm_num

/-! ## Claims C3 and C4: the correlation engine -/

/-- Removing a key commutes past the resolving replace-map. -/
theorem filter_map_resolve (t : Pending) (k : String) (v : FutState) :
    (t.map (fun e => if e.1 == k then (k, v) else e)).filter (fun e => ¬ e.1 == k)
      = t.filter (fun e => ¬ e.1 == k) := by
  induction t with
  | nil => rfl
  | cons e t ih =>
      by_cases h : e.1 = k
      · simp [h]
        simpa using ih
      · simp [h]
        simpa using ih

theorem ppop_pinsert (p : Pending) (k : String) (v : FutState) :
    ppop (pinsert p k v) k = ppop p k := by
  rw [pinsert]
  split
  · exact filter_map_resolve p k v
  · rw [ppop, ppop, List.filter_append]
    simp

/-- `execute_action` removes the request's pending slot on every exit path. -/
theorem execute_action_pending (p : Pending) (msgId actionName : String)
    (outcome : SendOutcome) :
    (execute_action true p msgId actionName outcome).pending = ppop p msgId := by
  cases outcome <;>
    simp [execute_action, ppop_pinsert]

/-- A substring test used to state "the message identifies x". -/
def strContainsSub (s pat : String) : Prop := pat.toList <:+: s.toList

instance (s pat : String) : Decidable (strContainsSub s pat) := by
  unfold strContainsSub
  infer_instance

/-- If the id is not a key, `ppop` is the identity. -/
theorem ppop_not_mem (p : Pending) (k : String)
    (h : ¬ p.any (fun e => e.1 == k)) : ppop p k = p := by
  rw [ppop]
  apply List.filter_eq_self.mpr
  intro e he
  simp only [List.any_eq_true, not_exists, not_and] at h
  simpa using h e he

/-- C3 (amended): on timeout `execute_action` fails with a Timeout error
whose message names the action (the request id appears only in the printed
log line, not in the error); and on every exit path — reply, timeout, or a
send error — the pending slot registered for the request id is removed:
the final `PENDING_RESPONSES` equals the original purged of that id, so a
fresh id leaves no residual pending entry. -/
theorem C3_execute_action_timeout_and_cleanup (pending : Pending)
    (msgId actionName : String) :
    ((execute_action true pending msgId actionName .timedOut).result
        = .error (.runtimeError ("Timeout waiting for " ++ actionName)) ∧
     strContainsSub ("Timeout waiting for " ++ actionName) actionName) ∧
    (∀ outcome,
      (execute_action true pending msgId actionName outcome).pending = ppop pending msgId) ∧
    (¬ pending.any (fun e => e.1 == msgId) →
      ∀ outcome,
        (execute_action true pending msgId actionName outcome).pending = pending) := by
  refine ⟨⟨rfl, ?_⟩, execute_action_pending pending msgId actionName, ?_⟩
  · refine ⟨"Timeout waiting for ".toList, [], ?_⟩
    simp [String.toList, String.data_append]
  · intro h outcome
    rw [execute_action_pending, ppop_not_mem pending msgId h]

/-- Witness for C3 at a concrete fresh id and empty pending map. -/
theorem C3_witness :
    ((execute_action true [] "id-4242" "screenshot" .timedOut).result
        = .error (.runtimeError ("Timeout waiting for " ++ "screenshot")) ∧
     strContainsSub ("Timeout waiting for " ++ "screenshot") "screenshot") ∧
    (execute_action true [] "id-4242" "screenshot" .timedOut).pending = [] :=
  ⟨(C3_execute_action_timeout_and_cleanup [] "id-4242" "screenshot").1,
   (C3_execute_action_timeout_and_cleanup [] "id-4242" "screenshot").2.2
     (by decide) .timedOut⟩

/-- Counterexample to C3 as stated: the raised Timeout error identifies
the action name but not the request id — at id `"id-4242"` the message
does not contain the id. -/
theorem C3_timeout_error_lacks_id_counterexample :
    (execute_action true [] "id-4242" "screenshot" .timedOut).result
        = .error (.runtimeError "Timeout waiting for screenshot") ∧
    ¬ strContainsSub "Timeout waiting for screenshot" "id-4242" := by
  exact ⟨by decide, by decide⟩

/-- Resolving map sets the matched slot. -/
theorem lookup_resolve_self (p : Pending) (i : String) (f : Frame)
    (hp : p.any (fun e => e.1 == i)) :
    (p.map (fun e => if e.1 == i then (i, .resolved f) else e)).lookup i
      = some (.resolved f) := by
  induction p with
  | nil => simp at hp
  | cons e t ih =>
      by_cases h : e.1 = i
      · have hb : (e.1 == i) = true := by simpa using h
        simp only [List.map_cons, if_pos hb]
        simp [List.lookup]
      · have hb : (e.1 == i) = false := by simpa using h
        have hbr : (i == e.1) = false := beq_eq_false_iff_ne.mpr (fun hc => h hc.symm)
        simp only [List.any_cons, hb, Bool.false_or] at hp
        simp only [List.map_cons, if_neg (by simp [hb] : ¬ (e.1 == i) = true)]
        simp only [List.lookup, hbr]
        exact ih hp

/-- Resolving map leaves every other slot untouched. -/
theorem lookup_resolve_other (p : Pending) (i j : String) (f : Frame)
    (hij : j ≠ i) :
    (p.map (fun e => if e.1 == i then (i, .resolved f) else e)).lookup j
      = p.lookup j := by
  induction p with
  | nil => rfl
  | cons e t ih =>
      by_cases h : e.1 = i
      · have hb : (e.1 == i) = true := by simpa using h
        have hji : (j == i) = false := beq_eq_false_iff_ne.mpr hij
        have hje : (j == e.1) = false := beq_eq_false_iff_ne.mpr (fun hc => hij (hc.trans h))
        simp only [List.map_cons, if_pos hb]
        simp only [List.lookup, hji, hje]
        exact ih
      · have hb : (e.1 == i) = false := by simpa using h
        simp only [List.map_cons, if_neg (by simp [hb] : ¬ (e.1 == i) = true)]
        by_cases h2 : j = e.1
        · have hb2 : (j == e.1) = true := by simpa using h2
          simp only [List.lookup, hb2]
        · have hb2 : (j == e.1) = false := by simpa using h2
          simp only [List.lookup, hb2]
          exact ih

/-- C4: an inbound frame whose id matches a pending entry resolves exactly
that slot — the matched id now holds the frame, every other id is
unchanged — and a frame whose id matches no pending entry leaves the
pending map untouched. -/
theorem C4_frame_routing_exact_slot (pending : Pending) (f : Frame) :
    (∀ i, f.id = some (.jstr i) → i ≠ "" → pending.any (fun e => e.1 == i) →
        (handle_frame pending f).2 = true ∧
        (handle_frame pending f).1.lookup i = some (.resolved f) ∧
        (∀ j, j ≠ i → (handle_frame pending f).1.lookup j = pending.lookup j)) ∧
    ((∀ i, f.id = some (.jstr i) → ¬ pending.any (fun e => e.1 == i)) →
        (handle_frame pending f).1 = pending) := by
  constructor
  · intro i hid hne hmem
    have ht : jtruthy (.jstr i) = true := by simpa [jtruthy] using hne
    simp only [handle_frame, hid, ht, if_true, if_pos hmem]
    exact ⟨trivial, lookup_resolve_self pending i f hmem,
           fun j hj => lookup_resolve_other pending i j f hj⟩
  · intro h
    cases hid : f.id with
    | none => simp [handle_frame, hid]
    | some v =>
        cases v with
        | jstr i =>
            by_cases ht : jtruthy (.jstr i) = true
            · simp [handle_frame, hid, ht, h i hid]
            · simp [handle_frame, hid, ht]
        | jnum n => simp [handle_frame, hid]
        | jbool b => simp [handle_frame, hid]

/-- Shared demo data for the correlation-routing witness. -/
def pendingDemo : Pending := [("id-a1", .waiting), ("id-b2", .waiting)]

def frameKnown : Frame := { id := some (.jstr "id-a1"), result := some [("ok", .jnum 1)] }

def frameUnknown : Frame := { id := some (.jstr "id-zz"), result := some [] }

/-- Witness for C4: the frame for `"id-a1"` resolves that slot, leaves
`"id-b2"` alone; a frame with unknown id `"id-zz"` changes nothing. -/
theorem C4_frame_routing_witness :
    ((handle_frame pendingDemo frameKnown).2 = true ∧
     (handle_frame pendingDemo frameKnown).1.lookup "id-a1" = some (.resolved frameKnown) ∧
     (handle_frame pendingDemo frameKnown).1.lookup "id-b2" = pendingDemo.lookup "id-b2") ∧
    (handle_frame pendingDemo frameUnknown).1 = pendingDemo := by
  have h1 := (C4_frame_routing_exact_slot pendingDemo frameKnown).1 "id-a1" rfl
    (by decide) (by decide)
  have h2 := (C4_frame_routing_exact_slot pendingDemo frameUnknown).2
    (fun i hi => by
      simp only [frameUnknown] at hi
      cases hi
      decide)
  exact ⟨⟨h1.1, h1.2.1, h1.2.2 "id-b2" (by decide)⟩, h2⟩

/-! ## Claims C2 and C6: the state synchronizer -/

theorem ok_bind {ε α β : Type} (a : α) (f : α → Except ε β) :
    (Except.ok a >>= f : Except ε β) = f a := rfl

theorem error_bind {ε α β : Type} (e : ε) (f : α → Except ε β) :
    ((Except.error e : Except ε α) >>= f : Except ε β) = .error e := rfl

theorem pure_eq_ok {ε α : Type} (a : α) : (pure a : Except ε α) = .ok a := rfl

/-- C2: whenever PIL is available and the screenshot payload carries a
base64 data URL that decodes to `w × h`, the captured viewport is the
screenshot-derived one: width `w`, height `h`, tagged
`source = "screenshot"` (the spec's provenance "derived") — whatever any
separately queried viewport would report. -/
theorem C2_derived_viewport_matches_decoded_screenshot (env : Env)
    (sd : JDict) (du b64 : String) (w h : Nat) (u : Option JDict)
    (hpil : env.pil = true)
    (hscr : env.exec "screenshot" [] = .ok (some sd))
    (hurl : env.exec "current_url" [] = .ok u)
    (hsd : sd ≠ [])
    (hdu : dget sd "dataUrl" = some (.jstr du))
    (hb64 : dataUrlPayload du = some b64)
    (hdec : env.decode b64 = some (w, h)) :
    ∃ st, get_current_state env = .ok st ∧
      st.viewport = [("width", .jnum w), ("height", .jnum h),
                     ("devicePixelRatio", .jnum 1), ("source", .jstr "screenshot")] := by
  have hhas : dhas sd "dataUrl" = true := by rw [dhas, hdu]; rfl
  refine ⟨⟨some sd,
           [("width", .jnum w), ("height", .jnum h),
            ("devicePixelRatio", .jnum 1), ("source", .jstr "screenshot")],
           urlOf u⟩, ?_, rfl⟩
  simp only [get_current_state, hscr, hurl, ok_bind, hpil]
  simp only [if_pos (And.intro hsd hhas), hdu, hb64, hdec, ok_bind, pure_eq_ok]
  simp [dhas, dget]

/-- `find?` after the replace-map of `dset`, away from the set key. -/
theorem find_map_set_ne (t : JDict) (k k' : String) (v : JVal) (h : k' ≠ k) :
    (t.map (fun e => if e.1 == k then (k, v) else e)).find? (fun e => e.1 == k')
      = t.find? (fun e => e.1 == k') := by
  induction t with
  | nil => rfl
  | cons e t ih =>
      by_cases he : e.1 = k
      · have hb : (e.1 == k) = true := by simpa using he
        have hk1 : (k == k') = false := beq_eq_false_iff_ne.mpr (fun hc => h hc.symm)
        have hk2 : (e.1 == k') = false := by
          rw [beq_eq_false_iff_ne]; intro hc; exact h (hc.symm.trans he)
        simp only [List.map_cons, if_pos hb, List.find?, hk1, hk2]
        exact ih
      · have hb : (e.1 == k) = false := by simpa using he
        simp only [List.map_cons, if_neg (by simp [hb] : ¬ (e.1 == k) = true)]
        by_cases h2 : e.1 = k'
        · have hb2 : (e.1 == k') = true := by simpa using h2
          simp only [List.find?, hb2]
        · have hb2 : (e.1 == k') = false := by simpa using h2
          simp only [List.find?, hb2]
          exact ih

/-- `find?` after the replace-map of `dset`, at the set key. -/
theorem find_map_set_self (t : JDict) (k : String) (v : JVal)
    (hh : (t.find? (fun e => e.1 == k)).isSome) :
    (t.map (fun e => if e.1 == k then (k, v) else e)).find? (fun e => e.1 == k)
      = some (k, v) := by
  induction t with
  | nil => simp [List.find?] at hh
  | cons e t ih =>
      by_cases he : e.1 = k
      · have hb : (e.1 == k) = true := by simpa using he
        simp only [List.map_cons, if_pos hb, List.find?, beq_self_eq_true]
      · have hb : (e.1 == k) = false := by simpa using he
        have hhead : (if e.1 == k then (k, v) else e) = e := if_neg (by simp [hb])
        simp only [List.find?, hb] at hh
        simp only [List.map_cons, hhead]
        simp only [List.find?, hb]
        exact ih hh

theorem dget_append_single_ne (d : JDict) (k k' : String) (v : JVal) (h : k' ≠ k) :
    dget (d ++ [(k, v)]) k' = dget d k' := by
  induction d with
  | nil =>
      have hb : (k == k') = false := beq_eq_false_iff_ne.mpr (fun hc => h hc.symm)
      simp [dget, List.find?, hb]
  | cons e t ih =>
      by_cases h2 : e.1 = k'
      · have hb2 : (e.1 == k') = true := by simpa using h2
        simp [dget, List.find?, hb2]
      · have hb2 : (e.1 == k') = false := by simpa using h2
        simp only [dget, List.cons_append, List.find?, hb2]
        exact ih

theorem dget_append_single_self (d : JDict) (k : String) (v : JVal)
    (hd : dhas d k = false) :
    dget (d ++ [(k, v)]) k = some v := by
  induction d with
  | nil => simp [dget, List.find?]
  | cons e t ih =>
      by_cases h2 : e.1 = k
      · exfalso
        have hb2 : (e.1 == k) = true := by simpa using h2
        simp [dhas, dget, List.find?, hb2] at hd
      · have hb2 : (e.1 == k) = false := by simpa using h2
        simp only [dhas, dget, List.cons_append, List.find?, hb2] at hd ⊢
        exact ih (by simpa [dhas, dget] using hd)

/-- `dset` preserves lookups at other keys. -/
theorem dget_dset_ne (d : JDict) (k k' : String) (v : JVal) (h : k' ≠ k) :
    dget (dset d k v) k' = dget d k' := by
  rw [dset]
  split
  · rw [dget, dget, find_map_set_ne d k k' v h]
  · exact dget_append_single_ne d k k' v h

/-- `dset` sets its key. -/
theorem dget_dset_self (d : JDict) (k : String) (v : JVal) :
    dget (dset d k v) k = some v := by
  rw [dset]
  split
  · next hc =>
      rw [dget, find_map_set_self d k v (by simpa [dhas, dget] using hc)]
      rfl
  · next hc => exact dget_append_single_self d k v (by simpa using hc)

/-- `dset` never yields the empty dict. -/
theorem dset_ne_nil (d : JDict) (k : String) (v : JVal) : dset d k v ≠ [] := by
  rw [dset]
  split
  · next hc =>
      intro hnil
      rw [List.map_eq_nil] at hnil
      subst hnil
      simp [dhas, dget, List.find?] at hc
  · simp

/-- The conditions under which `get_current_state` takes its fallback
branch: PIL missing, or the screenshot payload structurally lacks a
data-URL with a comma. -/
def fallbackTrigger (env : Env) (scr : Option JDict) : Prop :=
  env.pil = false ∨ scr = none ∨ scr = some [] ∨
  (∃ sd, scr = some sd ∧ sd ≠ [] ∧ dget sd "dataUrl" = none) ∨
  (∃ sd du, scr = some sd ∧ dget sd "dataUrl" = some (.jstr du) ∧
    dataUrlPayload du = none)

/-- On a fallback trigger, `get_current_state` reduces to the queried
viewport tagged "fallback", followed by the width/height check. -/
theorem get_current_state_fallback (env : Env) (scr u : Option JDict)
    (vd : JDict)
    (hscr : env.exec "screenshot" [] = .ok scr)
    (hurl : env.exec "current_url" [] = .ok u)
    (htrig : fallbackTrigger env scr)
    (hvp : env.exec "get_viewport" [] = .ok (some vd)) :
    get_current_state env =
      if dset vd "source" (.jstr "fallback") = []
          ∨ ¬ dhas (dset vd "source" (.jstr "fallback")) "width"
          ∨ ¬ dhas (dset vd "source" (.jstr "fallback")) "height" then
        .error (.runtimeError "Failed to get viewport dimensions")
      else
        .ok { screenshot := scr, viewport := dset vd "source" (.jstr "fallback"),
              url := urlOf u } := by
  have hfb : viewportFallback env = .ok (dset vd "source" (.jstr "fallback")) := by
    simp only [viewportFallback, hvp, ok_bind, pure_eq_ok]
  rcases htrig with h | h | h | ⟨sd, hs, hsd, hdu⟩ | ⟨sd, du, hs, hdu, hpl⟩
  · cases hpil : env.pil
    · simp only [get_current_state, hscr, hurl, ok_bind, hpil, hfb]
      cases scr <;> rfl
    · rw [hpil] at h; exact absurd h (by simp)
  · subst h
    simp only [get_current_state, hscr, hurl, ok_bind, hfb]
    cases env.pil <;> rfl
  · subst h
    simp only [get_current_state, hscr, hurl, ok_bind, hfb]
    cases env.pil
    · rfl
    · simp only [if_neg (by simp : ¬ (([] : JDict) ≠ [] ∧ dhas ([] : JDict) "dataUrl" = true)),
        hfb, ok_bind]
      rfl
  · subst hs
    simp only [get_current_state, hscr, hurl, ok_bind, hfb]
    cases env.pil
    · rfl
    · have hno : ¬ (sd ≠ [] ∧ dhas sd "dataUrl" = true) := by
        simp [dhas, hdu]
      simp only [if_neg hno, hfb, ok_bind]
      rfl
  · subst hs
    simp only [get_current_state, hscr, hurl, ok_bind, hfb]
    cases env.pil
    · rfl
    · by_cases hcond : (sd ≠ [] ∧ dhas sd "dataUrl" = true)
      · simp only [if_pos hcond, hdu, hpl, hfb, ok_bind]
        rfl
      · simp only [if_neg hcond, hfb, ok_bind]
        rfl

/-- C6 (amended): when image decoding is unavailable (no PIL) or the
screenshot payload structurally lacks a comma-separated data URL, capture
falls back to an explicit `get_viewport` query tagged
`source = "fallback"`, and fails with the StateUnavailable error exactly
when that queried dict lacks a width or height.  (A payload that passes
the structural checks but whose base64/image content fails to decode
raises instead of falling back — see the counterexample.) -/
theorem C6_fallback_and_state_unavailable (env : Env) (scr u : Option JDict)
    (vd : JDict)
    (hscr : env.exec "screenshot" [] = .ok scr)
    (hurl : env.exec "current_url" [] = .ok u)
    (htrig : fallbackTrigger env scr)
    (hvp : env.exec "get_viewport" [] = .ok (some vd)) :
    (dhas vd "width" = true → dhas vd "height" = true →
      ∃ st, get_current_state env = .ok st ∧
        st.viewport = dset vd "source" (.jstr "fallback") ∧
        dget st.viewport "source" = some (.jstr "fallback") ∧
        dget st.viewport "width" = dget vd "width" ∧
        dget st.viewport "height" = dget vd "height") ∧
    (¬ (dhas vd "width" = true ∧ dhas vd "height" = true) →
      get_current_state env =
        .error (.runtimeError "Failed to get viewport dimensions")) := by
  have hmain := get_current_state_fallback env scr u vd hscr hurl htrig hvp
  have hw : dhas (dset vd "source" (.jstr "fallback")) "width" = dhas vd "width" := by
    rw [dhas, dhas, dget_dset_ne vd "source" "width" _ (by decide)]
  have hh : dhas (dset vd "source" (.jstr "fallback")) "height" = dhas vd "height" := by
    rw [dhas, dhas, dget_dset_ne vd "source" "height" _ (by decide)]
  constructor
  · intro hwid hhei
    refine ⟨{ screenshot := scr, viewport := dset vd "source" (.jstr "fallback"),
              url := urlOf u }, ?_, rfl, ?_, ?_, ?_⟩
    · rw [hmain, if_neg]
      push_neg
      exact ⟨dset_ne_nil vd _ _, by rw [hw]; simp [hwid], by rw [hh]; simp [hhei]⟩
    · exact dget_dset_self vd "source" (.jstr "fallback")
    · exact dget_dset_ne vd "source" "width" _ (by decide)
    · exact dget_dset_ne vd "source" "height" _ (by decide)
  · intro hbad
    rw [hmain, if_pos]
    rcases Decidable.not_and_iff_or_not.mp hbad with hb | hb
    · right; left; rw [hw]; simpa using hb
    · right; right; rw [hh]; simpa using hb

/-- Concrete environment: PIL unavailable; `get_viewport` answers. -/
def envNoPil : Env :=
  { pil := false
    decode := fun _ => none
    exec := fun c _ =>
      if c = "screenshot" then .ok (some [("dataUrl", .jstr "data:image/png;base64,AAAA")])
      else if c = "current_url" then .ok (some [("url", .jstr "https://example.com")])
      else if c = "get_viewport" then .ok (some [("width", .jnum 1280), ("height", .jnum 720)])
      else .ok none }

/-- Witness for C6: with PIL unavailable the capture uses the queried
viewport and tags it "fallback". -/
theorem C6_fallback_witness :
    ∃ st, get_current_state envNoPil = .ok st ∧
      st.viewport = dset [("width", .jnum 1280), ("height", .jnum 720)] "source" (.jstr "fallback") ∧
      dget st.viewport "source" = some (.jstr "fallback") ∧
      dget st.viewport "width" = dget [("width", .jnum 1280), ("height", .jnum 720)] "width" ∧
      dget st.viewport "height" = dget [("width", .jnum 1280), ("height", .jnum 720)] "height" :=
  (C6_fallback_and_state_unavailable envNoPil
      (some [("dataUrl", .jstr "data:image/png;base64,AAAA")])
      (some [("url", .jstr "https://example.com")])
      [("width", .jnum 1280), ("height", .jnum 720)]
      rfl rfl (Or.inl rfl) rfl).1 (by decide) (by decide)

/-- Concrete environment whose screenshot payload passes the structural
checks but whose content fails to decode. -/
def envDecodeFail : Env :=
  { pil := true
    decode := fun _ => none
    exec := fun c _ =>
      if c = "screenshot" then .ok (some [("dataUrl", .jstr "data:image/png;base64,####")])
      else if c = "current_url" then .ok (some [("url", .jstr "https://example.com")])
      else if c = "get_viewport" then .ok (some [("width", .jnum 1280), ("height", .jnum 720)])
      else .ok none }

/-- Counterexample to C6 as stated: a malformed screenshot payload (a data
URL whose content does not decode to an image) does not fall back to the
viewport query — the decode error propagates out of `get_current_state`,
even though `get_viewport` would have answered with a full viewport. -/
theorem C6_malformed_payload_no_fallback_counterexample :
    get_current_state envDecodeFail = .error (.decodeError "cannot identify image file") ∧
    envDecodeFail.exec "get_viewport" []
      = .ok (some [("width", .jnum 1280), ("height", .jnum 720)]) ∧
    (∀ st : CState, get_current_state envDecodeFail ≠ .ok st) := by
  refine ⟨by decide, by decide, ?_⟩
  intro st hc
  rw [show get_current_state envDecodeFail = .error (.decodeError "cannot identify image file")
      from by decide] at hc
  exact Except.noConfusion hc

/-- Concrete environment whose screenshot decodes to 1280×800 while the
separately queried viewport would report 999×111. -/
def envDerived : Env :=
  { pil := true
    decode := fun _ => some (1280, 800)
    exec := fun c _ =>
      if c = "screenshot" then .ok (some [("dataUrl", .jstr "data:image/png;base64,iVBORw0KGgo")])
      else if c = "current_url" then .ok (some [("url", .jstr "https://example.com")])
      else if c = "get_viewport" then .ok (some [("width", .jnum 999), ("height", .jnum 111)])
      else .ok none }

/-- Witness for C2: the captured viewport is 1280×800 with source
"screenshot", although `get_viewport` reports 999×111. -/
theorem C2_derived_viewport_witness :
    (∃ st, get_current_state envDerived = .ok st ∧
      st.viewport = [("width", .jnum 1280), ("height", .jnum 800),
                     ("devicePixelRatio", .jnum 1), ("source", .jstr "screenshot")]) ∧
    envDerived.exec "get_viewport" [] = .ok (some [("width", .jnum 999), ("height", .jnum 111)]) :=
  ⟨C2_derived_viewport_matches_decoded_screenshot envDerived
      [("dataUrl", .jstr "data:image/png;base64,iVBORw0KGgo")]
      "data:image/png;base64,iVBORw0KGgo" "iVBORw0KGgo" 1280 800
      (some [("url", .jstr "https://example.com")])
      rfl rfl rfl (by decide) (by decide) (by decide) rfl,
   rfl⟩

/-! ## Claims C9 and C10: the action dispatcher -/

/-- The `extra` payload of an action branch is empty or the
"unimplemented" warning — in particular it never carries an `"error"`
key. -/
theorem actionSteps_extra (vwJ vhJ : JVal) (name : String) (args : JDict) :
    (actionSteps vwJ vhJ name args).2 = [] ∨
    (actionSteps vwJ vhJ name args).2 = [("warning", .jstr "unimplemented_action")] := by
  simp only [actionSteps.eq_def]
  split <;> simp

/-- Folding `dset`s whose keys avoid `k` preserves the lookup at `k`. -/
theorem dget_foldl_dset_ne (d : JDict) (acc : JDict) (k : String)
    (hd : ∀ e ∈ d, e.1 ≠ k) :
    dget (d.foldl (fun a e => dset a e.1 e.2) acc) k = dget acc k := by
  induction d generalizing acc with
  | nil => rfl
  | cons e t ih =>
      simp only [List.foldl_cons]
      rw [ih (dset acc e.1 e.2) (fun x hx => hd x (List.mem_cons_of_mem e hx)),
        dget_dset_ne acc e.1 k e.2 (fun hc => hd e (List.mem_cons_self e t) hc.symm)]

/-- The `"error"` entry written by the except-branch survives the merge
with the `extra` payload. -/
theorem dget_dmerge_error (extra : JDict) (m : String)
    (hex : ∀ e ∈ extra, e.1 ≠ "error") :
    dget (dmerge [("error", .jstr m)] extra) "error" = some (.jstr m) := by
  rw [dmerge, dget_foldl_dset_ne extra [("error", .jstr m)] "error" hex]
  rfl

/-- A failing action's payload records the error message. -/
theorem dispatchAction_error_recorded (exec : ExecO) (vwJ vhJ : JVal)
    (name : String) (args : JDict) (e : Err) (t : List Prim)
    (hrun : runSteps exec (actionSteps vwJ vhJ name args).1 = (.error e, t)) :
    dget (dispatchAction exec vwJ vhJ name args).1 "error" = some (.jstr e.msg) := by
  have hextra := actionSteps_extra vwJ vhJ name args
  rcases hAS : actionSteps vwJ vhJ name args with ⟨steps, extra⟩
  rw [hAS] at hrun hextra
  simp only at hrun hextra
  rw [dispatchAction, hAS]
  simp only [hrun]
  apply dget_dmerge_error
  rcases hextra with hx | hx <;> rw [hx]
  · intro _ h; cases h
  · intro x hx2
    rcases List.mem_singleton.mp hx2 with rfl
    decide

/-- C9: once the batch viewport is fetched, `exec_calls_websocket`
succeeds as a whole; it produces one result per call, in order, each the
dispatch of that call alone; and any error raised inside one action's
execution is recorded as an `"error"` payload on that action's result
(the remaining actions still being dispatched). -/
theorem C9_per_action_errors_isolated (exec : ExecO) (calls : List FCall)
    (vd : JDict) (vwJ vhJ : JVal)
    (hvp : exec "get_viewport" [] = .ok (some vd))
    (hw : dget vd "width" = some vwJ)
    (hh : dget vd "height" = some vhJ) :
    ∃ trace,
      exec_calls_websocket exec calls =
        .ok (calls.map (fun c =>
          (c.name, (dispatchAction exec vwJ vhJ c.name (c.args.getD [])).1)), trace) ∧
      (calls.map (fun c =>
          (c.name, (dispatchAction exec vwJ vhJ c.name (c.args.getD [])).1))).map Prod.fst
        = calls.map FCall.name ∧
      ∀ i (hi : i < calls.length) (e : Err) (t : List Prim),
        runSteps exec (actionSteps vwJ vhJ (calls.get ⟨i, hi⟩).name
            ((calls.get ⟨i, hi⟩).args.getD [])).1 = (.error e, t) →
        dget ((calls.map (fun c =>
            (c.name, (dispatchAction exec vwJ vhJ c.name (c.args.getD [])).1))).get
              ⟨i, by simpa using hi⟩).2 "error" = some (.jstr e.msg) := by
  refine ⟨.call "get_viewport" [] ::
      ((calls.map (fun c =>
        (dispatchAction exec vwJ vhJ c.name (c.args.getD [])).2)).join), ?_, ?_, ?_⟩
  · simp only [exec_calls_websocket, hvp, hw, hh, List.map_map]
    rfl
  · simp [Function.comp]
  · intro i hi e t hrun
    have hget : ((calls.map (fun c =>
        (c.name, (dispatchAction exec vwJ vhJ c.name (c.args.getD [])).1))).get
          ⟨i, by simpa using hi⟩)
        = ((calls.get ⟨i, hi⟩).name,
           (dispatchAction exec vwJ vhJ (calls.get ⟨i, hi⟩).name
             ((calls.get ⟨i, hi⟩).args.getD [])).1) := by
      simp
    rw [hget]
    exact dispatchAction_error_recorded exec vwJ vhJ _ _ e t hrun

/-- Demo executor: a full viewport, every other command answers `None`. -/
def execDemo : ExecO := fun c _ =>
  if c = "get_viewport" then .ok (some [("width", .jnum 1280), ("height", .jnum 720)])
  else .ok none

/-- Demo batch: a `navigate` with missing `url` argument (raises
`KeyError`), followed by a `go_back` that succeeds. -/
def callsDemo : List FCall := [⟨"navigate", some []⟩, ⟨"go_back", none⟩]

/-- Witness for C9: the batch succeeds as a whole, the failed first
action's payload records the `KeyError`, and the second action is still
dispatched. -/
theorem C9_witness :
    (∃ trace,
      exec_calls_websocket execDemo callsDemo =
        .ok (callsDemo.map (fun c =>
          (c.name, (dispatchAction execDemo (.jnum 1280) (.jnum 720) c.name
            (c.args.getD [])).1)), trace)) ∧
    dget ((callsDemo.map (fun c =>
        (c.name, (dispatchAction execDemo (.jnum 1280) (.jnum 720) c.name
          (c.args.getD [])).1))).get ⟨0, by decide⟩).2 "error"
      = some (.jstr "'url'") := by
  obtain ⟨trace, h1, h2, h3⟩ := C9_per_action_errors_isolated execDemo callsDemo
    [("width", .jnum 1280), ("height", .jnum 720)] (.jnum 1280) (.jnum 720)
    rfl (by decide) (by decide)
  exact ⟨⟨trace, h1⟩, h3 0 (by decide) (.keyError "url") [] (by decide)⟩

/-- C10: a `type_text_at` whose args omit `clear_before_typing` and
`press_enter` behaves as if both were requested — the dispatched primitive
sequence is click, select-all, delete, type, Enter — and coincides with
the dispatch of the same action with both options explicitly `true`. -/
theorem C10_type_text_at_defaults (exec : ExecO) (execR : String → JDict → Option JDict)
    (vwJ vhJ : JVal) (args : JDict) (xv yv tv : JVal) (dx dy : Int)
    (hexec : ∀ c a, exec c a = .ok (execR c a))
    (hclear : dget args "clear_before_typing" = none)
    (henter : dget args "press_enter" = none)
    (hx : dget args "x" = some xv) (hy : dget args "y" = some yv)
    (ht : dget args "text" = some tv)
    (hdx : denormJ true xv vwJ = .ok dx) (hdy : denormJ false yv vhJ = .ok dy) :
    dispatchAction exec vwJ vhJ "type_text_at" args
      = ([], [.call "click" [("x", .jnum dx), ("y", .jnum dy)],
              .call "press" [("key", .jstr "Meta+A")],
              .call "press" [("key", .jstr "Backspace")],
              .call "type" [("x", .jnum dx), ("y", .jnum dy), ("text", tv)],
              .call "press" [("key", .jstr "Enter")],
              .sleep (3/5)]) ∧
    dispatchAction exec vwJ vhJ "type_text_at" args
      = dispatchAction exec vwJ vhJ "type_text_at"
          (dset (dset args "clear_before_typing" (.jbool true)) "press_enter" (.jbool true)) := by
  set args' := dset (dset args "clear_before_typing" (.jbool true)) "press_enter" (.jbool true)
    with hargs'
  have hx' : dget args' "x" = some xv := by
    rw [hargs', dget_dset_ne _ _ _ _ (by decide), dget_dset_ne _ _ _ _ (by decide), hx]
  have hy' : dget args' "y" = some yv := by
    rw [hargs', dget_dset_ne _ _ _ _ (by decide), dget_dset_ne _ _ _ _ (by decide), hy]
  have ht' : dget args' "text" = some tv := by
    rw [hargs', dget_dset_ne _ _ _ _ (by decide), dget_dset_ne _ _ _ _ (by decide), ht]
  have hclear' : dget args' "clear_before_typing" = some (.jbool true) := by
    rw [hargs', dget_dset_ne _ _ _ _ (by decide), dget_dset_self]
  have henter' : dget args' "press_enter" = some (.jbool true) := by
    rw [hargs', dget_dset_self]
  have key : ∀ (a : JDict), dget a "x" = some xv → dget a "y" = some yv →
      dget a "text" = some tv → truthyD a "clear_before_typing" true = true →
      truthyD a "press_enter" true = true →
      dispatchAction exec vwJ vhJ "type_text_at" a
        = ([], [.call "click" [("x", .jnum dx), ("y", .jnum dy)],
                .call "press" [("key", .jstr "Meta+A")],
                .call "press" [("key", .jstr "Backspace")],
                .call "type" [("x", .jnum dx), ("y", .jnum dy), ("text", tv)],
                .call "press" [("key", .jstr "Enter")],
                .sleep (3/5)]) := by
    intro a hax hay hat hac hae
    rw [dispatchAction]
    simp only [actionSteps, hac, hae, if_pos rfl]
    simp only [argItem, hax, hay, hat, ok_bind, hdx, hdy, pure_eq_ok]
    simp only [runSteps, hexec]
    rfl
  have h1 := key args hx hy ht (by rw [truthyD, hclear]) (by rw [truthyD, henter])
  have h2 := key args' hx' hy' ht' (by rw [truthyD, hclear']; rfl) (by rw [truthyD, henter']; rfl)
  exact ⟨h1, h1.trans h2.symm⟩

theorem denormJ_500_1280 : denormJ true (.jnum 500) (.jnum 1280) = .ok 640 :=
  denorm_x_eval_500_1280

theorem denormJ_500_720 : denormJ false (.jnum 500) (.jnum 720) = .ok 360 :=
  denorm_y_eval_500_720

/-- The per-command results behind `execDemo`. -/
def execDemoR : String → JDict → Option JDict := fun c _ =>
  if c = "get_viewport" then some [("width", .jnum 1280), ("height", .jnum 720)]
  else none

def typeArgsDemo : JDict := [("x", .jnum 500), ("y", .jnum 500), ("text", .jstr "hello")]

/-- Witness for C10 at normalized (500, 500) on a 1280×720 viewport. -/
theorem C10_type_text_at_defaults_witness :
    dispatchAction execDemo (.jnum 1280) (.jnum 720) "type_text_at" typeArgsDemo
      = ([], [.call "click" [("x", .jnum 640), ("y", .jnum 360)],
              .call "press" [("key", .jstr "Meta+A")],
              .call "press" [("key", .jstr "Backspace")],
              .call "type" [("x", .jnum 640), ("y", .jnum 360), ("text", .jstr "hello")],
              .call "press" [("key", .jstr "Enter")],
              .sleep (3/5)]) ∧
    dispatchAction execDemo (.jnum 1280) (.jnum 720) "type_text_at" typeArgsDemo
      = dispatchAction execDemo (.jnum 1280) (.jnum 720) "type_text_at"
          (dset (dset typeArgsDemo "clear_before_typing" (.jbool true))
            "press_enter" (.jbool true)) :=
  C10_type_text_at_defaults execDemo execDemoR (.jnum 1280) (.jnum 720) typeArgsDemo
    (.jnum 500) (.jnum 500) (.jstr "hello") 640 360
    (fun c a => by by_cases h : c = "get_viewport" <;> simp [execDemo, execDemoR, h])
    (by decide) (by decide) (by decide) (by decide) (by decide)
    denormJ_500_1280 denormJ_500_720

/-! ## Claim C1: which viewport the dispatcher denormalizes against -/

/-- Concrete environment in which the screenshot decodes to 1280×800
while `get_viewport` reports 1280×720 (a device-pixel-ratio / zoom
mismatch). -/
def envMismatch : Env :=
  { pil := true
    decode := fun _ => some (1280, 800)
    exec := fun c _ =>
      if c = "screenshot" then .ok (some [("dataUrl", .jstr "data:image/png;base64,iVBORw0KGgo")])
      else if c = "current_url" then .ok (some [("url", .jstr "https://example.com")])
      else if c = "get_viewport" then .ok (some [("width", .jnum 1280), ("height", .jnum 720)])
      else .ok none }

/-- C1 evaluated at the failing input: state capture derives the viewport
1280×800 from the screenshot, but the action batch re-queries
`get_viewport` (1280×720) and denormalizes against that: `click_at`
(500, 500) is sent to pixel (640, 360), whereas the screenshot's own
pixel grid yields y = 400. -/
theorem C1_batch_uses_queried_viewport_not_screenshot :
    (∃ st, get_current_state envMismatch = .ok st ∧
       dget st.viewport "width" = some (.jnum 1280) ∧
       dget st.viewport "height" = some (.jnum 800)) ∧
    (∃ r, exec_calls_websocket envMismatch.exec
        [⟨"click_at", some [("x", .jnum 500), ("y", .jnum 500)]⟩] = .ok r ∧
       r.2 = [.call "get_viewport" [],
              .call "click" [("x", .jnum 640), ("y", .jnum 360)],
              .sleep (3/5)]) ∧
    denorm_y 500 800 = .ok 400 ∧ (360 : Int) ≠ (400 : Int) := by
  refine ⟨?_, ?_, denorm_y_eval_500_800, by decide⟩
  · exact ⟨{ screenshot := some [("dataUrl", .jstr "data:image/png;base64,iVBORw0KGgo")]
             viewport := [("width", .jnum 1280), ("height", .jnum 800),
                          ("devicePixelRatio", .jnum 1), ("source", .jstr "screenshot")]
             url := .jstr "https://example.com" }, by decide, by decide, by decide⟩
  · have hgx : dget [("x", .jnum 500), ("y", .jnum 500)] "x" = some (.jnum 500) := by decide
    have hgy : dget [("x", .jnum 500), ("y", .jnum 500)] "y" = some (.jnum 500) := by decide
    have hdisp : dispatchAction envMismatch.exec (.jnum 1280) (.jnum 720) "click_at"
        [("x", .jnum 500), ("y", .jnum 500)]
        = ([], [.call "click" [("x", .jnum 640), ("y", .jnum 360)], .sleep (3/5)]) := by
      rw [dispatchAction]
      simp only [actionSteps, argItem, hgx, hgy, ok_bind, denormJ_500_1280,
        denormJ_500_720, pure_eq_ok]
      simp only [runSteps,
        show envMismatch.exec "click" [("x", .jnum 640), ("y", .jnum 360)] = .ok none from rfl]
      rfl
    refine ⟨([("click_at", ([] : JDict))],
             [.call "get_viewport" [],
              .call "click" [("x", .jnum 640), ("y", .jnum 360)],
              .sleep (3/5)]), ?_, rfl⟩
    simp only [exec_calls_websocket,
      show envMismatch.exec "get_viewport" [] = .ok (some [("width", .jnum 1280), ("height", .jnum 720)]) from rfl,
      show dget [("width", .jnum 1280), ("height", .jnum 720)] "width" = some (.jnum 1280) from by decide,
      show dget [("width", .jnum 1280), ("height", .jnum 720)] "height" = some (.jnum 720) from by decide,
      List.map_cons, List.map_nil]
    simp only [Option.getD_some, hdisp]
    rfl

/-! ## Claims C7 and C8: the agent control loop -/

/-- A usable model response whose first candidate carries `parts`
containing at least one function call. -/
def goodCalls (r : GenResp) (parts : List GPart) : Prop :=
  ∃ cand rest, r.candidates = cand :: rest ∧ cand.content = some parts ∧
    parts ≠ [] ∧ parts.all (fun p => p.function_call = none) = false

/-- A usable model response whose first candidate carries `parts` with no
function call. -/
def doneTurn (r : GenResp) (parts : List GPart) : Prop :=
  ∃ cand rest, r.candidates = cand :: rest ∧ cand.content = some parts ∧
    parts ≠ [] ∧ parts.all (fun p => p.function_call = none) = true

/-- A fetchable, well-formed batch viewport. -/
def viewportOk (env : Env) : Prop :=
  ∃ vd vwJ vhJ, env.exec "get_viewport" [] = .ok (some vd) ∧
    dget vd "width" = some vwJ ∧ dget vd "height" = some vhJ

theorem exec_calls_isOk (exec : ExecO) (calls : List FCall) (vd : JDict)
    (vwJ vhJ : JVal) (hvp : exec "get_viewport" [] = .ok (some vd))
    (hw : dget vd "width" = some vwJ) (hh : dget vd "height" = some vhJ) :
    ∃ r, exec_calls_websocket exec calls = .ok r :=
  ⟨(calls.map (fun c =>
      (c.name, (dispatchAction exec vwJ vhJ c.name (c.args.getD [])).1)),
    .call "get_viewport" [] :: (calls.map (fun c =>
      (dispatchAction exec vwJ vhJ c.name (c.args.getD [])).2)).join),
   by simp only [exec_calls_websocket, hvp, hw, hh, List.map_map]; rfl⟩

theorem build_function_responses_isOk (env : Env)
    (results : List (String × JDict)) (st : CState)
    (hst : get_current_state env = .ok st) :
    ∃ r, build_function_responses_websocket env results = .ok r :=
  ⟨results.map (fun r => ⟨r.1, dmerge [("url", st.url)] r.2, screenshotPayloadOf st⟩),
   by simp only [build_function_responses_websocket, hst, ok_bind, pure_eq_ok]⟩

/-- If turns `turn, ..., turn+t-1` return action calls and turn `turn+t`
returns none, the loop completes at `turn+t` with that turn's text. -/
theorem agent_turns_completed (env : Env) (gen : Nat → GenResp) (maxSteps : Nat)
    (hvp : viewportOk env) (st0 : CState)
    (hst : get_current_state env = .ok st0) :
    ∀ t turn fuel, t < fuel →
      (∀ u, u < t → ∃ parts, goodCalls (gen (turn + u)) parts) →
      ∀ parts, doneTurn (gen (turn + t)) parts →
      ∃ sent batches,
        agent_turns env gen maxSteps turn fuel
          = ⟨.completed (joinTexts parts), t + 1, sent, batches⟩ ∧
        batches.length = t ∧ ServerMsg.agentResult (joinTexts parts) ∈ sent := by
  intro t
  induction t with
  | zero =>
      intro turn fuel hfuel hbefore parts hdone
      obtain ⟨cand, rest, hcand, hcontent, hne, hall⟩ := hdone
      cases fuel with
      | zero => omega
      | succ f =>
          rw [Nat.add_zero] at hcand
          refine ⟨[.serverOutput ("----- TURN " ++ toString (turn + 1) ++ " -----"),
                   .agentResult (joinTexts parts)], [], ?_, rfl, ?_⟩
          · simp only [agent_turns, hcand, hcontent, if_neg hne, hall, if_true]
          · simp
  | succ t ih =>
      intro turn fuel hfuel hbefore parts hdone
      cases fuel with
      | zero => omega
      | succ f =>
          obtain ⟨parts0, cand, rest, hcand, hcontent, hne, hall⟩ := hbefore 0 (by omega)
          rw [Nat.add_zero] at hcand
          obtain ⟨vd, vwJ, vhJ, hvd, hw, hh⟩ := hvp
          obtain ⟨⟨res1, tr1⟩, hr1⟩ :=
            exec_calls_isOk env.exec (extractCalls parts0) vd vwJ vhJ hvd hw hh
          obtain ⟨r2, hr2⟩ := build_function_responses_isOk env res1 st0 hst
          have hshift : ∀ u, u < t → ∃ parts, goodCalls (gen (turn + 1 + u)) parts := by
            intro u hu
            have := hbefore (u + 1) (by omega)
            rwa [show turn + (u + 1) = turn + 1 + u by ring] at this
          have hdone' : doneTurn (gen (turn + 1 + t)) parts := by
            rwa [show turn + 1 + t = turn + (t + 1) by ring]
          obtain ⟨sent, batches, hrec, hlen, hmem⟩ := ih (turn + 1) f (by omega) hshift parts hdone'
          refine ⟨.serverOutput ("----- TURN " ++ toString (turn + 1) ++ " -----") ::
                  .serverOutput "▶ Executing actions…" :: sent,
                  extractCalls parts0 :: batches, ?_, ?_, ?_⟩
          · simp only [agent_turns, hcand, hcontent, if_neg hne, hall,
              Bool.false_eq_true, if_false, hr1, hr2, hrec]
          · simp [hlen]
          · simp [hmem]

/-- If every remaining turn returns action calls, the loop exhausts its
budget and ends as step-limit. -/
theorem agent_turns_steplimit (env : Env) (gen : Nat → GenResp) (maxSteps : Nat)
    (hvp : viewportOk env) (st0 : CState)
    (hst : get_current_state env = .ok st0) :
    ∀ fuel turn,
      (∀ u, u < fuel → ∃ parts, goodCalls (gen (turn + u)) parts) →
      ∃ sent batches,
        agent_turns env gen maxSteps turn fuel = ⟨.stepLimit, fuel, sent, batches⟩ ∧
        batches.length = fuel ∧
        (env.wsConnected = true →
          ServerMsg.agentResult (stepLimitMsg maxSteps) ∈ sent) := by
  intro fuel
  induction fuel with
  | zero =>
      intro turn _
      refine ⟨if env.wsConnected then [.agentResult (stepLimitMsg maxSteps)] else [],
              [], ?_, rfl, ?_⟩
      · simp only [agent_turns]
      · intro hwc
        simp [hwc]
  | succ f ih =>
      intro turn hall
      obtain ⟨parts0, cand, rest, hcand, hcontent, hne, hparts⟩ := hall 0 (by omega)
      rw [Nat.add_zero] at hcand
      obtain ⟨vd, vwJ, vhJ, hvd, hw, hh⟩ := hvp
      obtain ⟨⟨res1, tr1⟩, hr1⟩ :=
        exec_calls_isOk env.exec (extractCalls parts0) vd vwJ vhJ hvd hw hh
      obtain ⟨r2, hr2⟩ := build_function_responses_isOk env res1 st0 hst
      have hshift : ∀ u, u < f → ∃ parts, goodCalls (gen (turn + 1 + u)) parts := by
        intro u hu
        have := hall (u + 1) (by omega)
        rwa [show turn + (u + 1) = turn + 1 + u by ring] at this
      obtain ⟨sent, batches, hrec, hlen, hmem⟩ := ih (turn + 1) hshift
      refine ⟨.serverOutput ("----- TURN " ++ toString (turn + 1) ++ " -----") ::
              .serverOutput "▶ Executing actions…" :: sent,
              extractCalls parts0 :: batches, ?_, ?_, ?_⟩
      · simp only [agent_turns, hcand, hcontent, if_neg hne, hparts,
          Bool.false_eq_true, if_false, hr1, hr2, hrec]
      · simp [hlen]
      · intro hwc
        simp [hmem hwc]

/-- C7: if the model's candidate at turn `t` (0-based) contains no action
calls — every earlier turn having returned calls — the loop terminates as
Completed, emits that candidate's joined text as the final answer, makes
exactly `t+1` model calls, and dispatches exactly `t` action batches:
later turns are never reached. -/
theorem C7_no_calls_completes (env : Env) (gen : Nat → GenResp)
    (maxSteps t : Nat) (parts : List GPart) (st0 : CState)
    (hvp : viewportOk env)
    (hst : get_current_state env = .ok st0)
    (ht : t < maxSteps)
    (hbefore : ∀ u, u < t → ∃ p, goodCalls (gen u) p)
    (hdone : doneTurn (gen t) parts) :
    ∃ sent batches,
      start_agent_loop env gen maxSteps
        = ⟨.completed (joinTexts parts), t + 1, sent, batches⟩ ∧
      batches.length = t ∧
      ServerMsg.agentResult (joinTexts parts) ∈ sent ∧
      t + 1 ≤ maxSteps := by
  have hbefore' : ∀ u, u < t → ∃ p, goodCalls (gen (0 + u)) p := by
    intro u hu; simpa using hbefore u hu
  have hdone' : doneTurn (gen (0 + t)) parts := by simpa using hdone
  obtain ⟨sent, batches, h1, h2, h3⟩ :=
    agent_turns_completed env gen maxSteps hvp st0 hst t 0 maxSteps ht hbefore' parts hdone'
  refine ⟨sent, batches, ?_, h2, h3, by omega⟩
  rw [start_agent_loop, hst]
  exact h1

/-- C8: if the model returns action calls on every turn, the loop runs
exactly `maxSteps` turns, dispatches `maxSteps` batches, terminates as
StepLimitReached, and sends the budget-exceeded notice to the peer. -/
theorem C8_step_limit_reached (env : Env) (gen : Nat → GenResp)
    (maxSteps : Nat) (st0 : CState)
    (hvp : viewportOk env)
    (hst : get_current_state env = .ok st0)
    (hwc : env.wsConnected = true)
    (hall : ∀ u, u < maxSteps → ∃ p, goodCalls (gen u) p) :
    ∃ sent batches,
      start_agent_loop env gen maxSteps = ⟨.stepLimit, maxSteps, sent, batches⟩ ∧
      batches.length = maxSteps ∧
      ServerMsg.agentResult (stepLimitMsg maxSteps) ∈ sent := by
  have hall' : ∀ u, u < maxSteps → ∃ p, goodCalls (gen (0 + u)) p := by
    intro u hu; simpa using hall u hu
  obtain ⟨sent, batches, h1, h2, h3⟩ :=
    agent_turns_steplimit env gen maxSteps hvp st0 hst maxSteps 0 hall'
  refine ⟨sent, batches, ?_, h2, h3 hwc⟩
  rw [start_agent_loop, hst]
  exact h1

/-- A candidate part carrying a `navigate` call. -/
def partNav : GPart :=
  { function_call := some ⟨"navigate", some [("url", .jstr "https://example.com")]⟩ }

/-- A candidate part carrying final text "Done". -/
def partDone : GPart := { text := some "Done" }

/-- Model oracle: turn 0 returns a navigate call, later turns return the
text "Done" with no calls. -/
def genNavThenDone : Nat → GenResp := fun u =>
  if u = 0 then { candidates := [⟨some [partNav]⟩] }
  else { candidates := [⟨some [partDone]⟩] }

/-- Model oracle: every turn returns a navigate call. -/
def genAlwaysNav : Nat → GenResp := fun _ => { candidates := [⟨some [partNav]⟩] }

/-- The state `envMismatch` captures. -/
def stMismatch : CState :=
  { screenshot := some [("dataUrl", .jstr "data:image/png;base64,iVBORw0KGgo")]
    viewport := [("width", .jnum 1280), ("height", .jnum 800),
                 ("devicePixelRatio", .jnum 1), ("source", .jstr "screenshot")]
    url := .jstr "https://example.com" }

/-- Witness for C7: budget 3, turn 1 (0-based turn 0) navigates, turn 2
(0-based 1) returns "Done" — the loop completes after exactly 2 model
calls and 1 dispatched batch, never reaching turn 3. -/
theorem C7_no_calls_completes_witness :
    (∃ sent batches,
      start_agent_loop envMismatch genNavThenDone 3
        = ⟨.completed (joinTexts [partDone]), 1 + 1, sent, batches⟩ ∧
      batches.length = 1 ∧
      ServerMsg.agentResult (joinTexts [partDone]) ∈ sent ∧
      1 + 1 ≤ 3) ∧
    joinTexts [partDone] = "Done" :=
  ⟨C7_no_calls_completes envMismatch genNavThenDone 3 1 [partDone] stMismatch
      ⟨[("width", .jnum 1280), ("height", .jnum 720)], .jnum 1280, .jnum 720,
        rfl, by decide, by decide⟩
      (by decide)
      (by decide)
      (fun u hu => by
        have hyp : u = 0 := by omega
        subst hyp
        exact ⟨[partNav], ⟨some [partNav]⟩, [], rfl, rfl, by decide, by decide⟩)
      ⟨⟨some [partDone]⟩, [], rfl, rfl, by decide, by decide⟩,
   rfl⟩

/-- Witness for C8: budget 2, the model always returns a call — the loop
stops as step-limit after exactly 2 turns and 2 batches, emitting the
budget notice. -/
theorem C8_step_limit_reached_witness :
    ∃ sent batches,
      start_agent_loop envMismatch genAlwaysNav 2 = ⟨.stepLimit, 2, sent, batches⟩ ∧
      batches.length = 2 ∧
      ServerMsg.agentResult (stepLimitMsg 2) ∈ sent :=
  C8_step_limit_reached envMismatch genAlwaysNav 2 stMismatch
    ⟨[("width", .jnum 1280), ("height", .jnum 720)], .jnum 1280, .jnum 720,
      rfl, by decide, by decide⟩
    (by decide)
    rfl
    (fun u _ => ⟨[partNav], ⟨some [partNav]⟩, [], rfl, rfl, by decide, by decide⟩)
